import Mathlib

/-!
# Colour vectors, transparency colours and the compact RGBE codec

A shallow embedding of `source/base/colour.h` (namespace `pov_base`).

Modelling conventions.

* A colour channel (`ColourChannel`, `PreciseColourChannel`, the template
  parameters `CHANNEL_T` and `T`) is a rational number and channel arithmetic is
  exact: the rounding of the floating-point channel type is not part of the
  model. Where a property turns on the rounding itself (an exact round trip, an
  underflow to zero), the operation is given a second time with the types of its
  steps: a `FloatFormat` is a binary floating-point format, `FloatFormat.round`
  the conversion of an exact value to it, and the channel type is a parameter
  `F` of the definition.
* The channel array `mColour[kChannels]` is a function on `Fin kChannels`; an
  elementwise `for` loop over all channels is the function it computes, a
  reduction loop is a left fold over the indices in increasing order.
* `operator[]` carries `assert(idx < kChannels)`; a failed assertion is the
  result `none`.
* A storage type (`unsigned char`, `signed char`) is given by its
  `std::numeric_limits`; stored values are integers.
* `unsigned int` arithmetic is arithmetic modulo `2 ^ 32`.
* The tests that depend on NaN (`IsValid`, `IsZero` after `Invalidate`) are
  stated over `NaNChannel`, the rationals extended by a quiet NaN that compares
  non-equal to itself.
* A method that is not `const` returns the object after the call, together with
  its return value when it has one.
-/

namespace pov_base

/-! ## Colour models -/

/-- The macro `NUM_COLOUR_CHANNELS`. -/
abbrev NUM_COLOUR_CHANNELS : Nat := 3

/-- The constant `ColourModelRGB::kChannels`. -/
abbrev ColourModelRGB.kChannels : Nat := 3

/-- The enumerator `ColourModelRGB::kRed`. -/
abbrev ColourModelRGB.kRed : Fin ColourModelRGB.kChannels := 0

/-- The enumerator `ColourModelRGB::kGreen`. -/
abbrev ColourModelRGB.kGreen : Fin ColourModelRGB.kChannels := 1

/-- The enumerator `ColourModelRGB::kBlue`. -/
abbrev ColourModelRGB.kBlue : Fin ColourModelRGB.kChannels := 2

/-- The constant `ColourModelInternal::kChannels`. -/
abbrev ColourModelInternal.kChannels : Nat := NUM_COLOUR_CHANNELS

/-! ## Storage types and C library functions -/

/-- The `std::numeric_limits` of an integer storage type `CHANNEL_T`. -/
structure StorageType where
  /-- The flag `std::numeric_limits<Channel>::is_signed`. -/
  is_signed : Bool
  /-- The value `std::numeric_limits<Channel>::min()`. -/
  min : Int
  /-- The value `std::numeric_limits<Channel>::max()`. -/
  max : Int

/-- The storage type `unsigned char` (the default `CHANNEL_T`). -/
def unsignedChar : StorageType := ⟨false, 0, 255⟩

/-- The storage type `signed char`. -/
def signedChar : StorageType := ⟨true, -128, 127⟩

/-- Conversion of an integer to `unsigned int`: reduction modulo `2 ^ 32`. -/
def toUnsigned (z : Int) : Int := z % 2 ^ 32

/-- Conversion of an `unsigned int` value to `int` (two's complement). -/
def toInt (z : Int) : Int :=
  if z % 2 ^ 32 < 2 ^ 31 then z % 2 ^ 32 else z % 2 ^ 32 - 2 ^ 32

/-- The C library function `frexp` in exact arithmetic: a nonzero `x` is split
into a fraction `m` with `1/2 ≤ |m| < 1` and a binary exponent `e` with
`x = m * 2 ^ e`; zero is split into `(0, 0)`. -/
def frexp (x : ℚ) : ℚ × Int :=
  if x = 0 then (0, 0)
  else (x / 2 ^ (Int.log 2 |x| + 1), Int.log 2 |x| + 1)

/-- The C library function `ldexp` in exact arithmetic: `x * 2 ^ e`. -/
def ldexp (x : ℚ) (e : Int) : ℚ := x * 2 ^ e

/-- Modelled from the spec: `clipToType` of `base/types.h`, which is not among
the sources. The spec has the value "clamped to the storage type's representable
range (saturating, not wrapping)". -/
def clipToType (st : StorageType) (v : Int) : Int :=
  if v < st.min then st.min else if v > st.max then st.max else v

/-! ## Floating-point formats -/

/-- A binary floating-point format of IEEE 754, given by the number of
significand bits and the exponent range. -/
structure FloatFormat where
  /-- The number of significand bits, the implicit leading bit included. -/
  prec : Nat
  /-- The exponent of the smallest normal value. -/
  emin : Int
  /-- The exponent of the largest finite value. -/
  emax : Int

/-- The type `float`: 24 significand bits, exponents `-126 .. 127`. -/
def binary32 : FloatFormat := ⟨24, -126, 127⟩

/-- The type `double`: 53 significand bits, exponents `-1022 .. 1023`. -/
def binary64 : FloatFormat := ⟨53, -1022, 1023⟩

/-- Rounding to the nearest integer, a tie going to the even neighbour. -/
def roundHalfEven (x : ℚ) : Int :=
  if x - ⌊x⌋ < 1 / 2 then ⌊x⌋
  else if 1 / 2 < x - ⌊x⌋ then ⌊x⌋ + 1
  else if ⌊x⌋ % 2 = 0 then ⌊x⌋ else ⌊x⌋ + 1

namespace FloatFormat

/-- The exponent `q` of the spacing `2 ^ q` of the values of the format around
`x`: the binade of `x`, or the lowest binade for a subnormal `x`, less the
`prec - 1` fraction bits. -/
def quantum (F : FloatFormat) (x : ℚ) : Int :=
  max (Int.log 2 |x|) F.emin - (F.prec - 1)

/-- The conversion of an exact value to the format in the default rounding mode
(to nearest, ties to even) with gradual underflow: the result of a
floating-point operation whose exact result is `x`. An overflow to infinity is
not represented; the result is the one of the format for every `x` with
`|x| < 2 ^ (emax + 1)` that does not round up to `2 ^ (emax + 1)`. -/
def round (F : FloatFormat) (x : ℚ) : ℚ :=
  (roundHalfEven (x / 2 ^ F.quantum x) : ℚ) * 2 ^ F.quantum x

/-- The finite values of the format: the conversion keeps `x`, and `x` is below
the overflow threshold `2 ^ (emax + 1)` in magnitude. -/
def IsValue (F : FloatFormat) (x : ℚ) : Prop :=
  F.round x = x ∧ |x| < 2 ^ (F.emax + 1)

instance (F : FloatFormat) (x : ℚ) : Decidable (F.IsValue x) :=
  inferInstanceAs (Decidable (F.round x = x ∧ |x| < 2 ^ (F.emax + 1)))

end FloatFormat

/-! ## Linear colour vectors -/

/-- The class template `GenericLinearColour<MODEL_T, CHANNEL_T, DERIVED_T>`: the
channel array `mColour[kChannels]`. -/
@[ext]
structure GenericLinearColour (kChannels : Nat) (Channel : Type) where
  /-- The member `Channel mColour[kChannels]`. -/
  mColour : Fin kChannels → Channel

namespace GenericLinearColour

variable {kChannels : Nat} {Channel : Type}

/-- The default constructor: every channel is `0.0`. -/
def zero [Zero Channel] : GenericLinearColour kChannels Channel :=
  ⟨fun _ => 0⟩

/-- The constructor `GenericLinearColour(Channel grey)`. -/
def ofGrey (grey : Channel) : GenericLinearColour kChannels Channel :=
  ⟨fun _ => grey⟩

/-- The accessor `operator[](unsigned int idx) const`, whose body is
`assert(idx < kChannels); return mColour[idx];`. -/
def subscript (col : GenericLinearColour kChannels Channel) (idx : Nat) : Option Channel :=
  if h : idx < kChannels then some (col.mColour ⟨idx, h⟩) else none

/-- The method `Max()`: starts from `mColour[0]` and folds `max` over the
channels `1 .. kChannels - 1`. -/
def Max [NeZero kChannels] (col : GenericLinearColour kChannels ℚ) : ℚ :=
  (List.finRange kChannels).tail.foldl (fun result i => max result (col.mColour i))
    (col.mColour 0)

/-- The method `MaxAbs()`: starts from `fabs(mColour[0])` and folds `max` over
`fabs(mColour[i])` for the channels `1 .. kChannels - 1`. -/
def MaxAbs [NeZero kChannels] (col : GenericLinearColour kChannels ℚ) : ℚ :=
  (List.finRange kChannels).tail.foldl (fun result i => max result |col.mColour i|)
    |col.mColour 0|

end GenericLinearColour

/-! ## Compact colours -/

/-- The constant `GenericCompactColour::kCoefficients = Model::kChannels + 1`. -/
abbrev kCoefficients (kChannels : Nat) : Nat := kChannels + 1

/-- The constant `GenericCompactColour::kExp = Model::kChannels`. -/
abbrev kExp (kChannels : Nat) : Nat := kChannels

/-- The number of elements of `GenericCompactColour::Data`, declared as
`typedef Channel Data[kCoefficients+1];`. -/
def dataSize (kChannels : Nat) : Nat := kCoefficients kChannels + 1

/-- The array type `GenericCompactColour::Data`. -/
abbrev Data (kChannels : Nat) : Type := Fin (dataSize kChannels) → Int

/-- The assignment `mData[i] = v`. -/
def Data.set {kChannels : Nat} (d : Data kChannels) (i : Nat) (v : Int) : Data kChannels :=
  fun j => if j.val = i then v else d j

/-- The read `mData[i]` for `i ≤ kChannels`. -/
def Data.get {kChannels : Nat} (d : Data kChannels) (i : Nat) (h : i ≤ kChannels) : Int :=
  d ⟨i, Nat.lt_succ_of_le (Nat.le_succ_of_le h)⟩

/-- The class template `GenericCompactColour<MODEL_T, BIAS, CHANNEL_T>`: the
member `Data mData`. -/
@[ext]
structure GenericCompactColour (kChannels : Nat) where
  /-- The member `Data mData`. -/
  mData : Data kChannels

/-- The outputs of `ComputeExponent`: the reference parameter `biasedExponent`,
which is written on every path, and `scaleFactor`, which is `some s` when the
function returns `true` after writing `s` and `none` when it returns `false`
without writing it. -/
structure ExponentResult where
  /-- The value written to `biasedExponent`. -/
  biasedExponent : Int
  /-- The value written to `scaleFactor`, when the function returns `true`. -/
  scaleFactor : Option ℚ

namespace GenericCompactColour

variable {kChannels : Nat}

/-- The static method `ComputeExponent(col, biasedExponent, scaleFactor)` for
the storage type `st` and the exponent bias `kBias`. The sum `exponent + kBias`
has type `unsigned int`; the literal `1.0e-32` is the rational `1 / 10 ^ 32`. -/
def ComputeExponent [NeZero kChannels] (st : StorageType) (kBias : Nat)
    (col : GenericLinearColour kChannels ℚ) : ExponentResult :=
  let maxChannel := if st.is_signed then col.MaxAbs else col.Max
  if maxChannel ≤ 1 / 10 ^ 32 then
    ⟨st.min, none⟩
  else
    let maxChannelMantissa := (frexp maxChannel).1
    let exponent := (frexp maxChannel).2
    let biasedExponent := clipToType st (toUnsigned (exponent + kBias))
    let maxChannelMantissa :=
      if toUnsigned biasedExponent ≠ toUnsigned (exponent + kBias) then
        ldexp maxChannelMantissa (toInt (exponent + kBias - biasedExponent))
      else maxChannelMantissa
    ⟨biasedExponent, some ((st.max + 1) * maxChannelMantissa / maxChannel)⟩

/-- The default constructor `GenericCompactColour()`: the mantissas
`mData[0 .. kChannels - 1]` are set to `0` and `mData[kExp]` to the storage
type's minimum; `raw` is the content of the storage before construction. -/
def defaultConstructed (st : StorageType) (raw : Data kChannels) : GenericCompactColour kChannels :=
  ⟨((List.range kChannels).foldl (fun d i => d.set i 0) raw).set (kExp kChannels) st.min⟩

/-- The encoding constructor `GenericCompactColour(col, ColourChannel dither)`.
`ComputeExponent` writes `mData[kChannels]`; both loops then run over
`i = 0 .. kChannels` inclusive, the first one reading `col[i]` through
`operator[]`. `raw` is the content of the storage before construction. -/
def ofLinearColour [NeZero kChannels] (st : StorageType) (kBias : Nat) (raw : Data kChannels)
    (col : GenericLinearColour kChannels ℚ) (dither : ℚ) :
    Option (GenericCompactColour kChannels) :=
  let r := ComputeExponent st kBias col
  let mData := raw.set kChannels r.biasedExponent
  match r.scaleFactor with
  | some scaleFactor =>
    ((List.range (kChannels + 1)).foldlM
      (fun d i => (col.subscript i).map
        (fun c => d.set i (clipToType st ⌊c * scaleFactor + 1 / 2 + dither⌋)))
      mData).map GenericCompactColour.mk
  | none =>
    some ⟨(List.range (kChannels + 1)).foldl (fun d i => d.set i 0) mData⟩

end GenericCompactColour

namespace GenericLinearColour

variable {kChannels : Nat}

/-- The decoding constructor `GenericLinearColour(const GenericCompactColour&)`
for the storage type `st` and the exponent bias `kBias`, with the product
`(col.mData[i]) * expFactor` taken exactly (`ofCompactColourRounded` has the
rounding of its steps). -/
def ofCompactColour (st : StorageType) (kBias : Nat) (col : GenericCompactColour kChannels) :
    GenericLinearColour kChannels ℚ :=
  if col.mData.get (kExp kChannels) (le_refl _) > st.min then
    let expFactor := ldexp 1 (col.mData.get (kExp kChannels) (le_refl _) - toInt (kBias + 8))
    ⟨fun i => (col.mData.get i.val (le_of_lt i.isLt) : ℚ) * expFactor⟩
  else
    ⟨fun _ => 0⟩

/-- The decoding constructor `GenericLinearColour(const GenericCompactColour&)`
with the types of its steps: `expFactor` is the `double` returned by `ldexp`,
the product `(col.mData[i]) * expFactor` is a `double`, and the assignment to
`mColour[i]` converts it to the channel type `F`. -/
def ofCompactColourRounded (F : FloatFormat) (st : StorageType) (kBias : Nat)
    (col : GenericCompactColour kChannels) : GenericLinearColour kChannels ℚ :=
  if col.mData.get (kExp kChannels) (le_refl _) > st.min then
    let expFactor :=
      binary64.round (ldexp 1 (col.mData.get (kExp kChannels) (le_refl _) - toInt (kBias + 8)))
    ⟨fun i =>
      F.round (binary64.round ((col.mData.get i.val (le_of_lt i.isLt) : ℚ) * expFactor))⟩
  else
    ⟨fun _ => 0⟩

end GenericLinearColour

/-! ## RGB colours and colours with transparency -/

/-- The class template `GenericRGBColour<CHANNEL_T>`, which derives from
`GenericLinearColour<ColourModelRGB, CHANNEL_T, GenericRGBColour<CHANNEL_T>>`. -/
abbrev GenericRGBColour (Channel : Type) : Type :=
  GenericLinearColour ColourModelRGB.kChannels Channel

namespace GenericLinearColour

/-- The copy constructor `GenericLinearColour(const GenericLinearColour& col)`:
a loop copying every channel. -/
def copy {kChannels : Nat} {Channel : Type} (col : GenericLinearColour kChannels Channel) :
    GenericLinearColour kChannels Channel :=
  ⟨fun i => col.mColour i⟩

end GenericLinearColour

namespace GenericRGBColour

variable {Channel : Type}

/-- The constructor `GenericRGBColour(Channel red, Channel green, Channel blue)`:
the base is default-constructed, then the three channels are assigned. -/
def ofRGB [Zero Channel] (red green blue : Channel) : GenericRGBColour Channel :=
  ⟨Function.update
    (Function.update
      (Function.update (GenericLinearColour.zero : GenericRGBColour Channel).mColour
        ColourModelRGB.kRed red)
      ColourModelRGB.kGreen green)
    ColourModelRGB.kBlue blue⟩

/-- The accessor `red()`. -/
def red (col : GenericRGBColour Channel) : Channel := col.mColour ColourModelRGB.kRed

/-- The accessor `green()`. -/
def green (col : GenericRGBColour Channel) : Channel := col.mColour ColourModelRGB.kGreen

/-- The accessor `blue()`. -/
def blue (col : GenericRGBColour Channel) : Channel := col.mColour ColourModelRGB.kBlue

end GenericRGBColour

/-- The class template `GenericRGBFTColour<T>`. -/
@[ext]
structure GenericRGBFTColour (T : Type) where
  /-- The member `GenericRGBColour<T> mColour`. -/
  mColour : GenericRGBColour T
  /-- The member `T mFilter`. -/
  mFilter : T
  /-- The member `T mTransm`. -/
  mTransm : T

/-- The class template `GenericRGBTColour<T>`. -/
@[ext]
structure GenericRGBTColour (T : Type) where
  /-- The member `GenericRGBColour<T> mColour`. -/
  mColour : GenericRGBColour T
  /-- The member `T mTransm`. -/
  mTransm : T

namespace GenericRGBFTColour

variable {T : Type}

/-- The constructor `GenericRGBFTColour(const GenericRGBColour<T>& col, T filter, T transm)`. -/
def ofColourFT (col : GenericRGBColour T) (filter transm : T) : GenericRGBFTColour T :=
  ⟨col.copy, filter, transm⟩

/-- The accessor `rgb() const`, which returns `mColour` by value. -/
def rgb (x : GenericRGBFTColour T) : GenericRGBColour T := x.mColour.copy

/-- The accessor `red() const`. -/
def red (x : GenericRGBFTColour T) : T := x.mColour.red

/-- The accessor `green() const`. -/
def green (x : GenericRGBFTColour T) : T := x.mColour.green

/-- The accessor `blue() const`. -/
def blue (x : GenericRGBFTColour T) : T := x.mColour.blue

/-- The accessor `filter() const`. -/
def filter (x : GenericRGBFTColour T) : T := x.mFilter

/-- The accessor `transm() const`. -/
def transm (x : GenericRGBFTColour T) : T := x.mTransm

/-- The static method `AtoFT(T alpha, T& f, T& t)` for the channel type `F`:
`f = 0.0f` and `t = 1.0f - alpha`, a subtraction in `T` whose result is rounded;
the result is the pair of the values written to `f` and `t`. -/
def staticAtoFT (F : FloatFormat) (alpha : ℚ) : ℚ × ℚ := (0, F.round (1 - alpha))

/-- The method `AtoFT(T alpha)` for the channel type `F`, which assigns
`mFilter = 0.0f` and `mTransm = 1.0f - alpha`, a subtraction in `T` whose result
is rounded. -/
def AtoFT (x : GenericRGBFTColour ℚ) (F : FloatFormat) (alpha : ℚ) : GenericRGBFTColour ℚ :=
  ⟨x.mColour, 0, F.round (1 - alpha)⟩

/-- The static method `FTtoA(T f, T t)` for the channel type `F`, which does not
use `f`: `1.0f - t`, a subtraction in `T` whose result is rounded. -/
def staticFTtoA (F : FloatFormat) (_f t : ℚ) : ℚ := F.round (1 - t)

/-- The method `FTtoA() const` in exact arithmetic. -/
def FTtoA (x : GenericRGBFTColour ℚ) : ℚ := 1 - x.mTransm

/-- The method `FTtoA() const` for the channel type `F`: `1.0f - mTransm`, a
subtraction in `T` whose result is rounded. -/
def FTtoARounded (x : GenericRGBFTColour ℚ) (F : FloatFormat) : ℚ := F.round (1 - x.mTransm)

end GenericRGBFTColour

namespace GenericRGBTColour

variable {T : Type}

/-- The constructor `GenericRGBTColour(const GenericRGBColour<T>& col, T transm)`. -/
def ofColourT (col : GenericRGBColour T) (transm : T) : GenericRGBTColour T :=
  ⟨col.copy, transm⟩

/-- The accessor `rgb() const`, which returns `mColour` by value. -/
def rgb (x : GenericRGBTColour T) : GenericRGBColour T := x.mColour.copy

/-- The accessor `red() const`. -/
def red (x : GenericRGBTColour T) : T := x.mColour.red

/-- The accessor `green() const`. -/
def green (x : GenericRGBTColour T) : T := x.mColour.green

/-- The accessor `blue() const`. -/
def blue (x : GenericRGBTColour T) : T := x.mColour.blue

/-- The accessor `transm() const`. -/
def transm (x : GenericRGBTColour T) : T := x.mTransm

end GenericRGBTColour

namespace GenericRGBColour

/-- The constructor `GenericRGBColour(const GenericRGBFTColour<Channel>& col)`,
which initialises the base with `GenericLinearColour(col.rgb())`. -/
def ofRGBFT {Channel : Type} (col : GenericRGBFTColour Channel) : GenericRGBColour Channel :=
  col.rgb.copy

end GenericRGBColour

/-- The type `RadianceHDRColour`: exponent bias `128`. -/
abbrev RadianceHDRColour.kBias : Nat := 128

/-- The type `PhotonColour`: exponent bias `250`. -/
abbrev PhotonColour.kBias : Nat := 250

/-! ## Channel comparison, validity and elementwise algebra -/

/-- A floating-point channel value for the validity tests: the quiet NaN or a
finite value. -/
inductive NaNChannel where
  | quiet_NaN : NaNChannel
  | finite (value : ℚ) : NaNChannel

/-- The comparison `a == b` of a floating-point channel type: a NaN compares
non-equal to everything, itself included. -/
def NaNChannel.equal : NaNChannel → NaNChannel → Bool
  | NaNChannel.finite a, NaNChannel.finite b => decide (a = b)
  | _, _ => false

instance : BEq NaNChannel := ⟨NaNChannel.equal⟩

instance : Zero NaNChannel := ⟨NaNChannel.finite 0⟩

/-- Modelled from the spec: `clip` of `base/types.h`, which is not among the
sources. The spec has "clip policy is a hard clamp (not rescale)" with "one-sided
variants": the value is raised to the lower bound as `ClipLower` does it,
`max(val, minv)`, then lowered to the upper bound as `ClipUpper` does it,
`min(..., maxv)`. -/
def clip (val minv maxv : ℚ) : ℚ := min (max val minv) maxv

namespace GenericLinearColour

variable {kChannels : Nat} {Channel : Type}

/-- The method `SumAbs()`: starts from `0.0` and adds `fabs(mColour[i])` for
every channel in index order. -/
def SumAbs (col : GenericLinearColour kChannels ℚ) : ℚ :=
  (List.finRange kChannels).foldl (fun result i => result + |col.mColour i|) 0

/-- The method `IsValid()`: starts from `true` and folds
`result && (mColour[i] == mColour[i])` over the channels. -/
def IsValid [BEq Channel] (col : GenericLinearColour kChannels Channel) : Bool :=
  (List.finRange kChannels).foldl
    (fun result i => result && (col.mColour i == col.mColour i)) true

/-- The method `IsZero()`: starts from `true` and folds
`result && (mColour[i] == 0.0)` over the channels. -/
def IsZero [BEq Channel] [Zero Channel] (col : GenericLinearColour kChannels Channel) : Bool :=
  (List.finRange kChannels).foldl (fun result i => result && (col.mColour i == 0)) true

/-- The method `Invalidate()`: every channel is assigned
`std::numeric_limits<Channel>::quiet_NaN()`; the result is the object after the
call. -/
def Invalidate (_col : GenericLinearColour kChannels NaNChannel) :
    GenericLinearColour kChannels NaNChannel :=
  ⟨fun _ => NaNChannel.quiet_NaN⟩

/-- The method `Clip(minc, maxc)`, which clips every channel in place; the
result is the object after the call. -/
def Clip (col : GenericLinearColour kChannels ℚ) (minc maxc : ℚ) :
    GenericLinearColour kChannels ℚ :=
  ⟨fun i => clip (col.mColour i) minc maxc⟩

/-- The method `Clipped(minc, maxc)`, which is not declared `const`: the first
component is the object after the call, the second the returned colour. -/
def Clipped (col : GenericLinearColour kChannels ℚ) (minc maxc : ℚ) :
    GenericLinearColour kChannels ℚ × GenericLinearColour kChannels ℚ :=
  (col, ⟨fun i => clip (col.mColour i) minc maxc⟩)

/-- The operator `operator+(const GenericLinearColour& b) const`. -/
def add (a b : GenericLinearColour kChannels ℚ) : GenericLinearColour kChannels ℚ :=
  ⟨fun i => a.mColour i + b.mColour i⟩

/-- The operator `operator-(const GenericLinearColour& b) const`. -/
def sub (a b : GenericLinearColour kChannels ℚ) : GenericLinearColour kChannels ℚ :=
  ⟨fun i => a.mColour i - b.mColour i⟩

/-- The operator `operator+=(const GenericLinearColour& b)`; the result is the
object after the call. -/
def addAssign (a b : GenericLinearColour kChannels ℚ) : GenericLinearColour kChannels ℚ :=
  ⟨fun i => a.mColour i + b.mColour i⟩

/-- The operator `operator-=(const GenericLinearColour& b)`; the result is the
object after the call. -/
def subAssign (a b : GenericLinearColour kChannels ℚ) : GenericLinearColour kChannels ℚ :=
  ⟨fun i => a.mColour i - b.mColour i⟩

end GenericLinearColour

/-- The function template `ColourDistance(a, b)` for `GenericLinearColour`:
`(a - b).SumAbs()`. -/
def ColourDistance {kChannels : Nat} (a b : GenericLinearColour kChannels ℚ) : ℚ :=
  (a.sub b).SumAbs

/-! ## Greyscale and weight -/

/-- The constant `kRedIntensity = 0.297`. -/
def kRedIntensity : ℚ := 297 / 1000

/-- The constant `kGreenIntensity = 0.589`. -/
def kGreenIntensity : ℚ := 589 / 1000

/-- The constant `kBlueIntensity = 0.114`. -/
def kBlueIntensity : ℚ := 114 / 1000

/-- The method `GenericRGBColour::Greyscale()`. -/
def GenericRGBColour.Greyscale (col : GenericRGBColour ℚ) : ℚ :=
  kRedIntensity * col.mColour ColourModelRGB.kRed +
    kGreenIntensity * col.mColour ColourModelRGB.kGreen +
    kBlueIntensity * col.mColour ColourModelRGB.kBlue

/-- The method `GenericRGBColour::Weight()` in exact arithmetic. -/
def GenericRGBColour.Weight (col : GenericRGBColour ℚ) : ℚ :=
  (|col.mColour ColourModelRGB.kRed| + |col.mColour ColourModelRGB.kGreen| +
    |col.mColour ColourModelRGB.kBlue|) / 3

/-- The method `GenericRGBColour::Weight()` with the types of its steps: `fabs`
and the two additions are evaluated in the format `A` (`float` or `double`,
according to the overload of `fabs` that is selected), the division by `3.0` is
a `double` division, and `return` converts the quotient to the channel type
`F`. -/
def GenericRGBColour.WeightRounded (F A : FloatFormat) (col : GenericRGBColour ℚ) : ℚ :=
  F.round (binary64.round
    (A.round (A.round (|col.mColour ColourModelRGB.kRed| + |col.mColour ColourModelRGB.kGreen|) +
      |col.mColour ColourModelRGB.kBlue|) / 3))

/-- The class template `GenericColour<CHANNEL_T>`, which derives from
`GenericLinearColour<ColourModelInternal, CHANNEL_T, GenericColour<CHANNEL_T>>`. -/
abbrev GenericColour (Channel : Type) : Type :=
  GenericLinearColour ColourModelInternal.kChannels Channel

/-- The constructor `GenericColour(Channel grey)`, which delegates to
`GenericLinearColour(grey)`. -/
def GenericColour.ofGrey {Channel : Type} (grey : Channel) : GenericColour Channel :=
  GenericLinearColour.ofGrey grey

/-- The method `GenericColour::Weight()` in exact arithmetic: `SumAbs() / 3.0`. -/
def GenericColour.Weight (col : GenericColour ℚ) : ℚ := col.SumAbs / 3

/-- The method `SumAbs()` with the types of its steps: `result` has the channel
type `F`, and `result += fabs(mColour[i])` evaluates the sum in the format `A`
(`float` or `double`, according to the overload of `fabs` that is selected) and
converts it to `F`. -/
def GenericLinearColour.SumAbsRounded {kChannels : Nat} (F A : FloatFormat)
    (col : GenericLinearColour kChannels ℚ) : ℚ :=
  (List.finRange kChannels).foldl
    (fun result i => F.round (A.round (result + |col.mColour i|))) 0

/-- The method `GenericColour::Weight()` with the types of its steps:
`SumAbs()` returns a value of the channel type `F`, the division by `3.0` is a
`double` division, and `return` converts the quotient to `F`. -/
def GenericColour.WeightRounded (F A : FloatFormat) (col : GenericColour ℚ) : ℚ :=
  F.round (binary64.round (col.SumAbsRounded F A / 3))

/-! ## Further conversions between colour types -/

/-- The constructor `GenericColour(const GenericRGBColour<Channel>& col)` of the
three-channel build: the base is default-constructed, then `mColour[0]`,
`mColour[1]` and `mColour[2]` are assigned `col.red()`, `col.green()` and
`col.blue()`. -/
def GenericColour.ofRGBColour {Channel : Type} [Zero Channel] (col : GenericRGBColour Channel) :
    GenericColour Channel :=
  ⟨Function.update
    (Function.update
      (Function.update (GenericLinearColour.zero : GenericColour Channel).mColour 0 col.red)
      1 col.green)
    2 col.blue⟩

/-- The constructor `GenericRGBColour(const GenericColour<Channel>& col)` of the
three-channel build: the base is default-constructed, then the red, green and
blue channels are assigned `col.mColour[0]`, `col.mColour[1]` and
`col.mColour[2]`. -/
def GenericRGBColour.ofColour {Channel : Type} [Zero Channel] (col : GenericColour Channel) :
    GenericRGBColour Channel :=
  ⟨Function.update
    (Function.update
      (Function.update (GenericLinearColour.zero : GenericRGBColour Channel).mColour
        ColourModelRGB.kRed (col.mColour 0))
      ColourModelRGB.kGreen (col.mColour 1))
    ColourModelRGB.kBlue (col.mColour 2)⟩

/-- The class template `GenericTransColour<T>`. -/
@[ext]
structure GenericTransColour (T : Type) where
  /-- The member `GenericColour<T> mColour`. -/
  mColour : GenericColour T
  /-- The member `T mFilter`. -/
  mFilter : T
  /-- The member `T mTransm`. -/
  mTransm : T

namespace GenericTransColour

variable {T : Type}

/-- The accessor `colour() const`, which returns `mColour` by value. -/
def colour (x : GenericTransColour T) : GenericColour T := x.mColour.copy

/-- The method `SetFT(f, t)`, which assigns `mFilter` and `mTransm`; the result
is the object after the call. -/
def SetFT (x : GenericTransColour T) (f t : T) : GenericTransColour T :=
  ⟨x.mColour, f, t⟩

/-- The method `GetFT(f, t) const`; the result is the pair of the values written
to `f` and `t`. -/
def GetFT (x : GenericTransColour T) : T × T := (x.mFilter, x.mTransm)

/-- The constructor `GenericTransColour(const GenericRGBFTColour<T>& col)`:
`mColour` is initialised from `col.rgb()`, then the body calls
`SetFT(col.filter(), col.transm())`. `rawFilter` and `rawTransm` are the
contents of the two members without initialiser before the body runs. -/
def ofRGBFT [Zero T] (rawFilter rawTransm : T) (col : GenericRGBFTColour T) :
    GenericTransColour T :=
  SetFT ⟨GenericColour.ofRGBColour col.rgb, rawFilter, rawTransm⟩ col.filter col.transm

/-- The method `GenericTransColour::IsValid()`. -/
def IsValid [BEq T] (x : GenericTransColour T) : Bool :=
  x.mColour.IsValid && (x.mFilter == x.mFilter) && (x.mTransm == x.mTransm)

end GenericTransColour

namespace GenericRGBTColour

variable {T : Type}

/-- The method `alpha() const`: `1.0 - mTransm`. -/
def alpha (x : GenericRGBTColour ℚ) : ℚ := 1 - x.mTransm

/-- The method `GenericRGBTColour::IsValid()`. -/
def IsValid [BEq T] (x : GenericRGBTColour T) : Bool :=
  x.mColour.IsValid && (x.mTransm == x.mTransm)

end GenericRGBTColour

namespace GenericRGBFTColour

variable {T : Type}

/-- The constructor `GenericRGBFTColour(const GenericRGBTColour<T>& col)`:
`mColour(col.rgb())`, `mFilter(0.0)`, `mTransm(col.transm())`. -/
def ofRGBT [Zero T] (col : GenericRGBTColour T) : GenericRGBFTColour T :=
  ⟨col.rgb.copy, 0, col.transm⟩

/-- The constructor `GenericRGBFTColour(const GenericTransColour<T>& col)`:
`mColour` is initialised from `col.colour()`, then the body calls
`col.GetFT(mFilter, mTransm)`, which writes both members. -/
def ofTransColour [Zero T] (col : GenericTransColour T) : GenericRGBFTColour T :=
  ⟨GenericRGBColour.ofColour col.colour, col.GetFT.1, col.GetFT.2⟩

/-- The method `opacity() const`: `1.0 - mFilter - mTransm`. -/
def opacity (x : GenericRGBFTColour ℚ) : ℚ := 1 - x.mFilter - x.mTransm

/-- The method `GenericRGBFTColour::IsValid()`. -/
def IsValid [BEq T] (x : GenericRGBFTColour T) : Bool :=
  x.mColour.IsValid && (x.mFilter == x.mFilter) && (x.mTransm == x.mTransm)

end GenericRGBFTColour

/-! ## Further reductions, scalar operators and transmitted colours -/

namespace GenericLinearColour

variable {kChannels : Nat}

/-- The method `Min()`: starts from `mColour[0]` and folds `min` over the
channels `1 .. kChannels - 1`. -/
def Min [NeZero kChannels] (col : GenericLinearColour kChannels ℚ) : ℚ :=
  (List.finRange kChannels).tail.foldl (fun result i => min result (col.mColour i))
    (col.mColour 0)

/-- The operator `operator*(Channel b) const`. -/
def mulScalar (a : GenericLinearColour kChannels ℚ) (b : ℚ) : GenericLinearColour kChannels ℚ :=
  ⟨fun i => a.mColour i * b⟩

/-- The operator `operator+(Channel b) const`. -/
def addScalar (a : GenericLinearColour kChannels ℚ) (b : ℚ) : GenericLinearColour kChannels ℚ :=
  ⟨fun i => a.mColour i + b⟩

end GenericLinearColour

/-- The method `GenericRGBFTColour::TransmittedColour()`:
`mColour * mFilter + mTransm`. -/
def GenericRGBFTColour.TransmittedColour (x : GenericRGBFTColour ℚ) : GenericRGBColour ℚ :=
  (x.mColour.mulScalar x.mFilter).addScalar x.mTransm

/-- The method `GenericRGBTColour::TransmittedColour()`:
`GenericRGBColour<T>(mTransm)`, the grey colour built by
`GenericLinearColour(Channel grey)`. -/
def GenericRGBTColour.TransmittedColour (x : GenericRGBTColour ℚ) : GenericRGBColour ℚ :=
  GenericLinearColour.ofGrey x.mTransm

namespace GenericColour

variable {Channel : Type}

/-- The method `Red()` of the three-channel build: `mColour[0]`. -/
def Red (col : GenericColour Channel) : Channel := col.mColour 0

/-- The method `Green()` of the three-channel build: `mColour[1]`. -/
def Green (col : GenericColour Channel) : Channel := col.mColour 1

/-- The method `Blue()` of the three-channel build: `mColour[2]`. -/
def Blue (col : GenericColour Channel) : Channel := col.mColour 2

/-- The method `GenericColour::Greyscale()` of the three-channel build. -/
def Greyscale (col : GenericColour ℚ) : ℚ :=
  kRedIntensity * col.mColour 0 + kGreenIntensity * col.mColour 1 +
    kBlueIntensity * col.mColour 2

end GenericColour

/-- The encoding constructor `GenericCompactColour(col, const GenericLinearColour& dither)`
with a dither per channel. It passes `mData[EXP]` to `ComputeExponent`; the
sources declare no `EXP`, which is a parameter here (a write outside the array
is dropped). Both loops run over `i = 0 .. kChannels` inclusive, the first one
reading `col[i]` and `dither[i]` through `operator[]`. `raw` is the content of
the storage before construction. -/
def GenericCompactColour.ofLinearColourDither {kChannels : Nat} [NeZero kChannels]
    (st : StorageType) (kBias : Nat) (EXP : Nat) (raw : Data kChannels)
    (col dither : GenericLinearColour kChannels ℚ) : Option (GenericCompactColour kChannels) :=
  let r := GenericCompactColour.ComputeExponent st kBias col
  let mData := raw.set EXP r.biasedExponent
  match r.scaleFactor with
  | some scaleFactor =>
    ((List.range (kChannels + 1)).foldlM
      (fun d i => (col.subscript i).bind (fun c => (dither.subscript i).map
        (fun dth => d.set i (clipToType st ⌊c * scaleFactor + 1 / 2 + dth⌋))))
      mData).map GenericCompactColour.mk
  | none =>
    some ⟨(List.range (kChannels + 1)).foldl (fun d i => d.set i 0) mData⟩

/-! ## Colour distances, legacy weights and the array interface -/

/-- The overload `ColourDistance(const GenericRGBColour<T>& a, const
GenericRGBColour<T>& b)`: `fabs(a.red() - b.red()) + fabs(a.green() - b.green())
+ fabs(a.blue() - b.blue())`. -/
def GenericRGBColour.ColourDistance (a b : GenericRGBColour ℚ) : ℚ :=
  |a.red - b.red| + |a.green - b.green| + |a.blue - b.blue|

/-- The function `ColourDistanceRGBT` for RGBFT colours:
`ColourDistance(a.rgb(), b.rgb()) + fabs(a.transm() - b.transm())`, where
`ColourDistance` is the overload for RGB colours. -/
def GenericRGBFTColour.ColourDistanceRGBT (a b : GenericRGBFTColour ℚ) : ℚ :=
  GenericRGBColour.ColourDistance a.rgb b.rgb + |a.transm - b.transm|

/-- The function `ColourDistanceRGBT` for RGBT colours:
`ColourDistance(a.rgb(), b.rgb()) + fabs(a.transm() - b.transm())`, where
`ColourDistance` is the overload for RGB colours. -/
def GenericRGBTColour.ColourDistanceRGBT (a b : GenericRGBTColour ℚ) : ℚ :=
  GenericRGBColour.ColourDistance a.rgb b.rgb + |a.transm - b.transm|

namespace GenericRGBColour

/-- The method `WeightAbsGreyscale()`: `fabs(Greyscale())`. -/
def WeightAbsGreyscale (col : GenericRGBColour ℚ) : ℚ := |GenericRGBColour.Greyscale col|

/-- The method `WeightGreyscale()`: `Greyscale()`. -/
def WeightGreyscale (col : GenericRGBColour ℚ) : ℚ := GenericRGBColour.Greyscale col

/-- The method `WeightMax()`: `Max()`. -/
def WeightMax (col : GenericRGBColour ℚ) : ℚ := GenericLinearColour.Max col

/-- The method `WeightMaxAbs()`: `MaxAbs()`. -/
def WeightMaxAbs (col : GenericRGBColour ℚ) : ℚ := GenericLinearColour.MaxAbs col

end GenericRGBColour

/-- The array type `EXPRESS`, declared as `typedef DBL EXPRESS[5];`. The element
type `DBL` is a floating-point type of its own, whose format is the parameter
`D` of `Get`; the values of the elements are rationals. -/
abbrev EXPRESS : Type := Fin 5 → ℚ

/-- The enumerator `pRED = 0` of `backend/frame.h`. -/
abbrev pRED : Fin 5 := 0

/-- The enumerator `pGREEN = 1` of `backend/frame.h`. -/
abbrev pGREEN : Fin 5 := 1

/-- The enumerator `pBLUE = 2` of `backend/frame.h`. -/
abbrev pBLUE : Fin 5 := 2

/-- The enumerator `pFILTER = 3` of `backend/frame.h`. -/
abbrev pFILTER : Fin 5 := 3

/-- The enumerator `pTRANSM = 4` of `backend/frame.h`. -/
abbrev pTRANSM : Fin 5 := 4

namespace GenericRGBFTColour

/-- The method `Get(EXPRESS expr, unsigned int n) const`: five guarded
assignments to `expr[0] .. expr[4]`, each converting a value of the channel type
`T` to the element type `DBL` of format `D`; the result is the array after the
call. -/
def Get (x : GenericRGBFTColour ℚ) (D : FloatFormat) (expr : EXPRESS) (n : Nat) : EXPRESS :=
  let expr := if n > 0 then Function.update expr 0 (D.round x.mColour.red) else expr
  let expr := if n > 1 then Function.update expr 1 (D.round x.mColour.green) else expr
  let expr := if n > 2 then Function.update expr 2 (D.round x.mColour.blue) else expr
  let expr := if n > 3 then Function.update expr 3 (D.round x.mFilter) else expr
  if n > 4 then Function.update expr 4 (D.round x.mTransm) else expr

/-- The method `Set(const EXPRESS expr, unsigned int n)`: five guarded
assignments to `mColour.red()`, `mColour.green()`, `mColour.blue()`, `mFilter`
and `mTransm`, each converting a `DBL` element to the channel type `T` of format
`F`; the result is the object after the call. -/
def Set (x : GenericRGBFTColour ℚ) (F : FloatFormat) (expr : EXPRESS) (n : Nat) :
    GenericRGBFTColour ℚ :=
  let x : GenericRGBFTColour ℚ :=
    if n > 0 then ⟨⟨Function.update x.mColour.mColour ColourModelRGB.kRed (F.round (expr 0))⟩,
      x.mFilter, x.mTransm⟩ else x
  let x : GenericRGBFTColour ℚ :=
    if n > 1 then ⟨⟨Function.update x.mColour.mColour ColourModelRGB.kGreen (F.round (expr 1))⟩,
      x.mFilter, x.mTransm⟩ else x
  let x : GenericRGBFTColour ℚ :=
    if n > 2 then ⟨⟨Function.update x.mColour.mColour ColourModelRGB.kBlue (F.round (expr 2))⟩,
      x.mFilter, x.mTransm⟩ else x
  let x : GenericRGBFTColour ℚ :=
    if n > 3 then ⟨x.mColour, F.round (expr 3), x.mTransm⟩ else x
  if n > 4 then ⟨x.mColour, x.mFilter, F.round (expr 4)⟩ else x

end GenericRGBFTColour

/-! ## Auxiliary facts -/

theorem Data.foldl_set_apply {kChannels : Nat} (l : List Nat) (v : Int) (d : Data kChannels)
    (j : Fin (dataSize kChannels)) :
    (l.foldl (fun d i => d.set i v) d) j = if j.val ∈ l then v else d j := by
  induction l generalizing d with
  | nil => simp
  | cons a l ih =>
    rw [List.foldl_cons, ih]
    by_cases hl : j.val ∈ l
    · simp [hl]
    · by_cases ha : j.val = a
      · simp [hl, ha, Data.set]
      · simp [hl, ha, Data.set]

theorem GenericLinearColour.subscript_kChannels {kChannels : Nat} {Channel : Type}
    (col : GenericLinearColour kChannels Channel) : col.subscript kChannels = none := by
  simp [GenericLinearColour.subscript]

theorem GenericCompactColour.ComputeExponent_of_le {kChannels : Nat} [NeZero kChannels]
    (st : StorageType) (kBias : Nat) (col : GenericLinearColour kChannels ℚ)
    (h : (if st.is_signed then col.MaxAbs else col.Max) ≤ 1 / 10 ^ 32) :
    GenericCompactColour.ComputeExponent st kBias col = ⟨st.min, none⟩ := by
  unfold GenericCompactColour.ComputeExponent
  simp only [h, if_true]

theorem GenericCompactColour.ComputeExponent_isSome {kChannels : Nat} [NeZero kChannels]
    (st : StorageType) (kBias : Nat) (col : GenericLinearColour kChannels ℚ)
    (h : 1 / 10 ^ 32 < (if st.is_signed then col.MaxAbs else col.Max)) :
    (GenericCompactColour.ComputeExponent st kBias col).scaleFactor.isSome = true := by
  unfold GenericCompactColour.ComputeExponent
  simp only [not_le.mpr h, if_false, Option.isSome_some]

theorem GenericCompactColour.ofLinearColour_eq_none {kChannels : Nat} [NeZero kChannels]
    (st : StorageType) (kBias : Nat) (raw : Data kChannels)
    (col : GenericLinearColour kChannels ℚ) (dither : ℚ)
    (h : (GenericCompactColour.ComputeExponent st kBias col).scaleFactor.isSome = true) :
    GenericCompactColour.ofLinearColour st kBias raw col dither = none := by
  obtain ⟨s, hs⟩ := Option.isSome_iff_exists.mp h
  unfold GenericCompactColour.ofLinearColour
  simp only [hs]
  rw [List.range_succ, List.foldlM_append]
  simp [GenericLinearColour.subscript_kChannels]

theorem GenericLinearColour.Max_three (col : GenericLinearColour 3 ℚ) :
    col.Max = max (max (col.mColour 0) (col.mColour 1)) (col.mColour 2) := rfl

theorem GenericRGBColour.ofRGB_red (red green blue : ℚ) :
    (GenericRGBColour.ofRGB red green blue).mColour 0 = red := rfl

theorem GenericRGBColour.ofRGB_green (red green blue : ℚ) :
    (GenericRGBColour.ofRGB red green blue).mColour 1 = green := rfl

theorem GenericRGBColour.ofRGB_blue (red green blue : ℚ) :
    (GenericRGBColour.ofRGB red green blue).mColour 2 = blue := rfl

theorem GenericRGBColour.ofRGB_Max (red green blue : ℚ) :
    (GenericRGBColour.ofRGB red green blue).Max = max (max red green) blue := by
  rw [GenericLinearColour.Max_three, GenericRGBColour.ofRGB_red, GenericRGBColour.ofRGB_green,
    GenericRGBColour.ofRGB_blue]

theorem frexp_one : frexp 1 = (1 / 2, 1) := by
  simp [frexp, Int.log_one_right]

theorem foldl_and_eq_all {α : Type} (l : List α) (p : α → Bool) (b : Bool) :
    l.foldl (fun result i => result && p i) b = (b && l.all p) := by
  induction l generalizing b with
  | nil => simp
  | cons a l ih => simp [List.foldl_cons, ih, Bool.and_assoc]

theorem GenericLinearColour.IsValid_eq_true_iff {kChannels : Nat} {Channel : Type} [BEq Channel]
    (col : GenericLinearColour kChannels Channel) :
    col.IsValid = true ↔ ∀ i, (col.mColour i == col.mColour i) = true := by
  unfold GenericLinearColour.IsValid
  rw [foldl_and_eq_all]
  simp [List.all_eq_true]

theorem GenericLinearColour.IsZero_eq_true_iff {kChannels : Nat} {Channel : Type} [BEq Channel]
    [Zero Channel] (col : GenericLinearColour kChannels Channel) :
    col.IsZero = true ↔ ∀ i, (col.mColour i == 0) = true := by
  unfold GenericLinearColour.IsZero
  rw [foldl_and_eq_all]
  simp [List.all_eq_true]

theorem NaNChannel.beq_self_eq_false (c : NaNChannel) :
    (c == c) = false ↔ c = NaNChannel.quiet_NaN := by
  show NaNChannel.equal c c = false ↔ _
  cases c <;> simp [NaNChannel.equal]

theorem NaNChannel.quiet_NaN_beq (c : NaNChannel) : (NaNChannel.quiet_NaN == c) = false := by
  show NaNChannel.equal NaNChannel.quiet_NaN c = false
  cases c <;> rfl

theorem GenericLinearColour.IsValid_eq_false_iff {kChannels : Nat}
    (col : GenericLinearColour kChannels NaNChannel) :
    col.IsValid = false ↔ ∃ i, col.mColour i = NaNChannel.quiet_NaN := by
  rw [← Bool.not_eq_true, GenericLinearColour.IsValid_eq_true_iff]
  simp only [not_forall, Bool.not_eq_true, NaNChannel.beq_self_eq_false]

theorem foldl_add_abs_of_zero {α : Type} (l : List α) (f : α → ℚ) (hf : ∀ i, f i = 0) (r : ℚ) :
    l.foldl (fun result i => result + |f i|) r = r := by
  induction l generalizing r with
  | nil => rfl
  | cons a l ih => simp [List.foldl_cons, hf, ih]

theorem GenericLinearColour.SumAbs_three (col : GenericLinearColour 3 ℚ) :
    col.SumAbs = |col.mColour 0| + |col.mColour 1| + |col.mColour 2| := by
  have h : col.SumAbs = 0 + |col.mColour 0| + |col.mColour 1| + |col.mColour 2| := rfl
  rw [h, zero_add]

theorem clip_mem (val minv maxv : ℚ) (h : minv ≤ maxv) :
    minv ≤ clip val minv maxv ∧ clip val minv maxv ≤ maxv := by
  unfold clip
  exact ⟨le_min (le_max_right _ _) h, min_le_right _ _⟩

theorem clip_of_mem (val minv maxv : ℚ) (h1 : minv ≤ val) (h2 : val ≤ maxv) :
    clip val minv maxv = val := by
  unfold clip
  rw [max_eq_left h1, min_eq_left h2]

theorem clip_clip (val minv maxv : ℚ) :
    clip (clip val minv maxv) minv maxv = clip val minv maxv := by
  rcases le_total minv maxv with h | h
  · exact clip_of_mem _ minv maxv (clip_mem val minv maxv h).1 (clip_mem val minv maxv h).2
  · unfold clip
    rw [min_eq_right (le_trans h (le_max_right val minv)), max_eq_right h, min_eq_right h]

theorem frexp_two_zpow (k : Int) : frexp ((2 : ℚ) ^ k) = (1 / 2, k + 1) := by
  have hpos : (0 : ℚ) < 2 ^ k := zpow_pos (by norm_num) k
  have hlog : Int.log 2 ((2 : ℚ) ^ k) = k := by
    have h := Int.log_zpow (R := ℚ) (b := 2) (by norm_num) k
    simpa using h
  unfold frexp
  rw [if_neg (ne_of_gt hpos), abs_of_pos hpos, hlog, zpow_add_one₀ (by norm_num)]
  congr 1
  field_simp

theorem GenericCompactColour.ofLinearColourDither_eq_none {kChannels : Nat} [NeZero kChannels]
    (st : StorageType) (kBias : Nat) (EXP : Nat) (raw : Data kChannels)
    (col dither : GenericLinearColour kChannels ℚ)
    (h : (GenericCompactColour.ComputeExponent st kBias col).scaleFactor.isSome = true) :
    GenericCompactColour.ofLinearColourDither st kBias EXP raw col dither = none := by
  obtain ⟨s, hs⟩ := Option.isSome_iff_exists.mp h
  unfold GenericCompactColour.ofLinearColourDither
  simp only [hs]
  rw [List.range_succ, List.foldlM_append]
  simp [GenericLinearColour.subscript_kChannels]

theorem eq_zero_or_mem_tail_finRange {n : Nat} [NeZero n] (i : Fin n) :
    i = 0 ∨ i ∈ (List.finRange n).tail := by
  obtain ⟨m, rfl⟩ := Nat.exists_eq_succ_of_ne_zero (NeZero.ne n)
  have h := List.mem_finRange i
  rw [List.finRange_succ_eq_map] at h
  rw [List.finRange_succ_eq_map, List.tail_cons]
  exact List.mem_cons.mp h

theorem foldl_max_spec {α : Type} (f : α → ℚ) (l : List α) (r : ℚ) :
    r ≤ l.foldl (fun result i => max result (f i)) r ∧
      (∀ i ∈ l, f i ≤ l.foldl (fun result i => max result (f i)) r) ∧
      (l.foldl (fun result i => max result (f i)) r = r ∨
        ∃ i ∈ l, l.foldl (fun result i => max result (f i)) r = f i) := by
  induction l generalizing r with
  | nil => simp
  | cons a l ih =>
    obtain ⟨h1, h2, h3⟩ := ih (max r (f a))
    rw [List.foldl_cons]
    refine ⟨le_trans (le_max_left _ _) h1, ?_, ?_⟩
    · intro i hi
      rcases List.mem_cons.mp hi with rfl | hi
      · exact le_trans (le_max_right _ _) h1
      · exact h2 i hi
    · rcases h3 with h3 | ⟨i, hi, h3⟩
      · rcases max_choice r (f a) with hm | hm
        · exact Or.inl (by rw [h3, hm])
        · exact Or.inr ⟨a, List.mem_cons_self _ _, by rw [h3, hm]⟩
      · exact Or.inr ⟨i, List.mem_cons_of_mem _ hi, h3⟩

theorem foldl_min_spec {α : Type} (f : α → ℚ) (l : List α) (r : ℚ) :
    l.foldl (fun result i => min result (f i)) r ≤ r ∧
      (∀ i ∈ l, l.foldl (fun result i => min result (f i)) r ≤ f i) ∧
      (l.foldl (fun result i => min result (f i)) r = r ∨
        ∃ i ∈ l, l.foldl (fun result i => min result (f i)) r = f i) := by
  induction l generalizing r with
  | nil => simp
  | cons a l ih =>
    obtain ⟨h1, h2, h3⟩ := ih (min r (f a))
    rw [List.foldl_cons]
    refine ⟨le_trans h1 (min_le_left _ _), ?_, ?_⟩
    · intro i hi
      rcases List.mem_cons.mp hi with rfl | hi
      · exact le_trans h1 (min_le_right _ _)
      · exact h2 i hi
    · rcases h3 with h3 | ⟨i, hi, h3⟩
      · rcases min_choice r (f a) with hm | hm
        · exact Or.inl (by rw [h3, hm])
        · exact Or.inr ⟨a, List.mem_cons_self _ _, by rw [h3, hm]⟩
      · exact Or.inr ⟨i, List.mem_cons_of_mem _ hi, h3⟩

theorem GenericLinearColour.IsZero_three (col : GenericLinearColour 3 ℚ) :
    col.IsZero = true ↔ col.mColour 0 = 0 ∧ col.mColour 1 = 0 ∧ col.mColour 2 = 0 := by
  rw [GenericLinearColour.IsZero_eq_true_iff]
  simp [Fin.forall_fin_succ]

theorem GenericRGBColour.Weight_eq (col : GenericRGBColour ℚ) :
    GenericRGBColour.Weight col =
      (|col.mColour 0| + |col.mColour 1| + |col.mColour 2|) / 3 := rfl

theorem abs_sum_three_eq_zero_iff (a b c : ℚ) :
    (|a| + |b| + |c|) / 3 = 0 ↔ a = 0 ∧ b = 0 ∧ c = 0 := by
  have ha := abs_nonneg a
  have hb := abs_nonneg b
  have hc := abs_nonneg c
  constructor
  · intro h
    have hs : |a| + |b| + |c| = 0 := by linarith
    exact ⟨abs_eq_zero.mp (by linarith), abs_eq_zero.mp (by linarith),
      abs_eq_zero.mp (by linarith)⟩
  · rintro ⟨rfl, rfl, rfl⟩
    simp

theorem GenericLinearColour.MaxAbs_three (col : GenericLinearColour 3 ℚ) :
    col.MaxAbs = max (max |col.mColour 0| |col.mColour 1|) |col.mColour 2| := rfl

theorem GenericCompactColour.ComputeExponent_one_half_quarter :
    GenericCompactColour.ComputeExponent unsignedChar RadianceHDRColour.kBias
      (GenericRGBColour.ofRGB 1 (1 / 2) (1 / 4)) = ⟨129, some 128⟩ := by
  have hmax : (GenericRGBColour.ofRGB (1 : ℚ) (1 / 2) (1 / 4)).Max = 1 := by
    rw [GenericRGBColour.ofRGB_Max]
    norm_num
  unfold GenericCompactColour.ComputeExponent
  simp only [unsignedChar, Bool.false_eq_true, if_false, hmax, frexp_one]
  norm_num [clipToType, toUnsigned]

theorem frexp_mul_zpow (x : ℚ) (hx : 0 < x) : (frexp x).1 * 2 ^ (frexp x).2 = x := by
  unfold frexp
  rw [if_neg (ne_of_gt hx)]
  exact div_mul_cancel₀ x (zpow_ne_zero _ two_ne_zero)

theorem frexp_fst_ne_zero (x : ℚ) (hx : 0 < x) : (frexp x).1 ≠ 0 := by
  intro h
  have h2 := frexp_mul_zpow x hx
  rw [h, zero_mul] at h2
  exact (ne_of_gt hx) h2.symm

theorem frexp_exponent_ge (x : ℚ) (hx : 0 < x) (a : Int) (h : (2 : ℚ) ^ a ≤ x) :
    a + 1 ≤ (frexp x).2 := by
  have hlog : a ≤ Int.log 2 x :=
    (Int.zpow_le_iff_le_log (R := ℚ) (b := 2) (by norm_num) hx).mp (by simpa using h)
  unfold frexp
  rw [if_neg (ne_of_gt hx), abs_of_pos hx]
  show a + 1 ≤ Int.log 2 x + 1
  omega

theorem frexp_exponent_le (x : ℚ) (hx : 0 < x) (b : Int) (h : x < (2 : ℚ) ^ b) :
    (frexp x).2 ≤ b := by
  have hlog : Int.log 2 x < b :=
    (Int.lt_zpow_iff_log_lt (R := ℚ) (b := 2) (by norm_num) hx).mp (by simpa using h)
  unfold frexp
  rw [if_neg (ne_of_gt hx), abs_of_pos hx]
  show Int.log 2 x + 1 ≤ b
  omega

theorem scale_eq_zpow (m : ℚ) (hm : m ≠ 0) (e d t : Int) (h : 8 + d = t + e) :
    (((255 : Int) : ℚ) + 1) * (m * 2 ^ d) / (m * 2 ^ e) = 2 ^ t := by
  have h2 : (2 : ℚ) ≠ 0 := two_ne_zero
  have h256 : (((255 : Int) : ℚ) + 1) = 2 ^ (8 : Int) := by norm_num
  rw [h256, div_eq_iff (mul_ne_zero hm (zpow_ne_zero _ h2))]
  calc (2 : ℚ) ^ (8 : Int) * (m * 2 ^ d) = m * ((2 : ℚ) ^ (8 : Int) * 2 ^ d) := by ring
    _ = m * 2 ^ (8 + d) := by rw [zpow_add₀ h2]
    _ = m * 2 ^ (t + e) := by rw [h]
    _ = m * ((2 : ℚ) ^ t * 2 ^ e) := by rw [zpow_add₀ h2]
    _ = 2 ^ t * (m * 2 ^ e) := by ring

theorem one_over_ten_pow_gt_two_zpow : (2 : ℚ) ^ (-107 : Int) ≤ 1 / 10 ^ 32 := by
  rw [zpow_neg, one_div]
  apply inv_anti₀
  · norm_num
  · norm_num

theorem GenericCompactColour.ComputeExponent_unsigned_in_range {kChannels : Nat}
    [NeZero kChannels] (kBias : Nat) (col : GenericLinearColour kChannels ℚ)
    (hM : 1 / 10 ^ 32 < col.Max)
    (h0 : 0 ≤ (frexp col.Max).2 + kBias) (h1 : (frexp col.Max).2 + kBias ≤ 255) :
    GenericCompactColour.ComputeExponent unsignedChar kBias col =
      ⟨(frexp col.Max).2 + kBias,
        some (2 ^ (8 + (kBias : Int) - ((frexp col.Max).2 + kBias)))⟩ := by
  have hpos : (0 : ℚ) < col.Max := lt_trans (by norm_num) hM
  have hU : toUnsigned ((frexp col.Max).2 + kBias) = (frexp col.Max).2 + kBias := by
    unfold toUnsigned
    omega
  have hclip : clipToType ⟨false, 0, 255⟩ ((frexp col.Max).2 + kBias) =
      (frexp col.Max).2 + kBias := by
    unfold clipToType
    rw [if_neg (by simpa using h0), if_neg (by simpa using h1)]
  have hscale := scale_eq_zpow (frexp col.Max).1 (frexp_fst_ne_zero _ hpos) (frexp col.Max).2 0
    (8 + (kBias : Int) - ((frexp col.Max).2 + kBias)) (by ring)
  rw [zpow_zero, mul_one, frexp_mul_zpow _ hpos] at hscale
  unfold GenericCompactColour.ComputeExponent
  simp only [unsignedChar, Bool.false_eq_true, if_false]
  rw [if_neg (not_le.mpr hM)]
  simp only [hU, hclip, ne_eq, not_true_eq_false, if_false, hscale]

theorem GenericCompactColour.ComputeExponent_unsigned_clamped {kChannels : Nat}
    [NeZero kChannels] (kBias : Nat) (col : GenericLinearColour kChannels ℚ)
    (hM : 1 / 10 ^ 32 < col.Max)
    (h : 255 < (frexp col.Max).2 + kBias ∨ (frexp col.Max).2 + kBias < 0)
    (hlo : 255 - 2 ^ 31 ≤ (frexp col.Max).2 + kBias)
    (hhi : (frexp col.Max).2 + kBias < 2 ^ 31 + 255) :
    GenericCompactColour.ComputeExponent unsignedChar kBias col =
      ⟨255, some (2 ^ (8 + (kBias : Int) - 255))⟩ := by
  have hpos : (0 : ℚ) < col.Max := lt_trans (by norm_num) hM
  have hU : 255 < toUnsigned ((frexp col.Max).2 + kBias) := by
    unfold toUnsigned
    omega
  have hclip : clipToType ⟨false, 0, 255⟩ (toUnsigned ((frexp col.Max).2 + kBias)) = 255 := by
    unfold clipToType
    rw [if_neg (by simp only [not_lt]; omega), if_pos (by simpa using hU)]
  have hne : toUnsigned 255 ≠ toUnsigned ((frexp col.Max).2 + kBias) := by
    have h255 : toUnsigned 255 = 255 := by decide
    rw [h255]
    exact ne_of_lt hU
  have hI : toInt ((frexp col.Max).2 + kBias - 255) = (frexp col.Max).2 + kBias - 255 := by
    unfold toInt
    split_ifs <;> omega
  have hscale := scale_eq_zpow (frexp col.Max).1 (frexp_fst_ne_zero _ hpos) (frexp col.Max).2
    ((frexp col.Max).2 + kBias - 255) (8 + (kBias : Int) - 255) (by ring)
  rw [frexp_mul_zpow _ hpos] at hscale
  unfold GenericCompactColour.ComputeExponent
  simp only [unsignedChar, Bool.false_eq_true, if_false]
  rw [if_neg (not_le.mpr hM)]
  simp only [hclip, hne, ne_eq, not_false_eq_true, if_true, hI, ldexp, hscale]

theorem roundHalfEven_intCast (n : Int) : roundHalfEven (n : ℚ) = n := by
  simp [roundHalfEven]

theorem roundHalfEven_nonneg (x : ℚ) (hx : 0 ≤ x) : 0 ≤ roundHalfEven x := by
  have h : 0 ≤ ⌊x⌋ := Int.floor_nonneg.mpr hx
  unfold roundHalfEven
  split_ifs <;> omega

theorem roundHalfEven_of_lt_half (x : ℚ) (n : Int) (h1 : (n : ℚ) ≤ x) (h2 : x < n + 1 / 2) :
    roundHalfEven x = n := by
  have hf : ⌊x⌋ = n := by
    rw [Int.floor_eq_iff]
    constructor
    · exact h1
    · linarith
  unfold roundHalfEven
  rw [hf, if_pos (by linarith)]

theorem roundHalfEven_of_gt_half (x : ℚ) (n : Int) (h1 : (n : ℚ) + 1 / 2 < x)
    (h2 : x < n + 1) : roundHalfEven x = n + 1 := by
  have hf : ⌊x⌋ = n := by
    rw [Int.floor_eq_iff]
    constructor
    · linarith
    · exact h2
  unfold roundHalfEven
  rw [hf, if_neg (by linarith), if_pos (by linarith)]

theorem FloatFormat.round_zero (F : FloatFormat) : F.round 0 = 0 := by
  simp [FloatFormat.round, roundHalfEven]

theorem FloatFormat.round_nonneg (F : FloatFormat) (x : ℚ) (hx : 0 ≤ x) : 0 ≤ F.round x := by
  unfold FloatFormat.round
  have h : 0 ≤ roundHalfEven (x / 2 ^ F.quantum x) :=
    roundHalfEven_nonneg _ (div_nonneg hx (by positivity))
  have h2 : (0 : ℚ) ≤ (roundHalfEven (x / 2 ^ F.quantum x) : ℚ) := by exact_mod_cast h
  positivity

theorem log_two_eq (x : ℚ) (L : Int) (hx : 0 < x) (h1 : (2 : ℚ) ^ L ≤ x)
    (h2 : x < 2 ^ (L + 1)) : Int.log 2 x = L := by
  have a : L ≤ Int.log 2 x :=
    (Int.zpow_le_iff_le_log (by norm_num) hx).mp (by exact_mod_cast h1)
  have b : Int.log 2 x < L + 1 :=
    (Int.lt_zpow_iff_log_lt (by norm_num) hx).mp (by exact_mod_cast h2)
  omega

/-- The rounding of a positive value of the binade `2 ^ L ≤ x < 2 ^ (L + 1)`. -/
theorem FloatFormat.round_eq (F : FloatFormat) (x : ℚ) (L n : Int) (hx : 0 < x)
    (h1 : (2 : ℚ) ^ L ≤ x) (h2 : x < 2 ^ (L + 1))
    (hn : roundHalfEven (x / 2 ^ (max L F.emin - (F.prec - 1))) = n) :
    F.round x = n * 2 ^ (max L F.emin - (F.prec - 1)) := by
  unfold FloatFormat.round FloatFormat.quantum
  rw [abs_of_pos hx, log_two_eq x L hx h1 h2, hn]

/-- A value `m * 2 ^ k` with a significand of at most `prec` bits and an exponent
not below that of the smallest subnormal is a value of the format: rounding
keeps it. -/
theorem FloatFormat.round_int_mul_zpow (F : FloatFormat) (m k : Int)
    (hm : |m| < 2 ^ F.prec) (hk : F.emin - (F.prec - 1) ≤ k) :
    F.round (m * 2 ^ k) = m * 2 ^ k := by
  by_cases h0 : m = 0
  · simp [h0, FloatFormat.round_zero]
  have hpos : (0 : ℚ) < |(m : ℚ) * 2 ^ k| := by
    apply abs_pos.mpr
    have : (m : ℚ) ≠ 0 := by exact_mod_cast h0
    positivity
  have hlt : |(m : ℚ) * 2 ^ k| < 2 ^ ((F.prec : Int) + k) := by
    rw [abs_mul, abs_of_pos (by positivity : (0 : ℚ) < 2 ^ k), zpow_add₀ (by norm_num)]
    apply mul_lt_mul_of_pos_right _ (by positivity)
    rw [zpow_natCast]
    exact_mod_cast hm
  have hlog : Int.log 2 |(m : ℚ) * 2 ^ k| < F.prec + k :=
    (Int.lt_zpow_iff_log_lt (by norm_num) hpos).mp (by exact_mod_cast hlt)
  have hq : F.quantum (m * 2 ^ k) ≤ k := by
    unfold FloatFormat.quantum
    rcases max_cases (Int.log 2 |(m : ℚ) * 2 ^ k|) F.emin with ⟨h, _⟩ | ⟨h, _⟩ <;> rw [h] <;> omega
  obtain ⟨d, hd⟩ := Int.eq_ofNat_of_zero_le (sub_nonneg.mpr hq)
  have hk2 : k = F.quantum (m * 2 ^ k) + d := by omega
  unfold FloatFormat.round
  generalize F.quantum (m * 2 ^ k) = q at hk2 ⊢
  have hdiv : (m : ℚ) * 2 ^ k / 2 ^ q = ((m * 2 ^ d : Int) : ℚ) := by
    rw [hk2, zpow_add₀ (by norm_num)]
    field_simp
    ring
  rw [hdiv, roundHalfEven_intCast, hk2, zpow_add₀ (by norm_num)]
  push_cast
  rw [zpow_natCast]
  ring

/-- A value `m * 2 ^ k` with a significand of at most `prec` bits and an exponent
between that of the smallest subnormal and `emax - prec + 1` is a finite value
of the format. -/
theorem FloatFormat.isValue_int_mul_zpow (F : FloatFormat) (m k : Int)
    (hm : |m| < 2 ^ F.prec) (hk : F.emin - (F.prec - 1) ≤ k) (hov : k + F.prec ≤ F.emax + 1) :
    F.IsValue (m * 2 ^ k) := by
  refine ⟨FloatFormat.round_int_mul_zpow F m k hm hk, ?_⟩
  have h1 : |(m : ℚ) * 2 ^ k| < 2 ^ ((F.prec : Int) + k) := by
    rw [abs_mul, abs_of_pos (by positivity : (0 : ℚ) < 2 ^ k), zpow_add₀ (by norm_num)]
    apply mul_lt_mul_of_pos_right _ (by positivity)
    rw [zpow_natCast]
    exact_mod_cast hm
  exact lt_of_lt_of_le h1 (zpow_le_zpow_right₀ (by norm_num) (by omega))

/-- A non-negative value below half the smallest positive value of the format
rounds to zero. -/
theorem FloatFormat.round_of_lt_half_min (F : FloatFormat) (x : ℚ) (hx : 0 ≤ x)
    (h : x < 2 ^ (F.emin - F.prec)) : F.round x = 0 := by
  rcases eq_or_lt_of_le hx with h0 | hpos
  · rw [← h0, FloatFormat.round_zero]
  have hlog : Int.log 2 |x| < F.emin - F.prec := by
    rw [abs_of_pos hpos]
    exact (Int.lt_zpow_iff_log_lt (by norm_num) hpos).mp (by exact_mod_cast h)
  have hq : F.quantum x = F.emin - F.prec + 1 := by
    unfold FloatFormat.quantum
    rw [max_eq_right (by omega)]
    ring
  unfold FloatFormat.round
  rw [hq, roundHalfEven_of_lt_half _ 0 (by simpa using div_nonneg hx (by positivity))]
  · simp
  · rw [div_lt_iff₀ (by positivity)]
    calc x < 2 ^ (F.emin - F.prec) := h
      _ = ((0 : Int) + 1 / 2 : ℚ) * 2 ^ (F.emin - (F.prec : Int) + 1) := by
        rw [zpow_add₀ (by norm_num)]
        norm_num
        ring

theorem toInt_of_lt (z : Int) (h0 : 0 ≤ z) (h : z < 2 ^ 31) : toInt z = z := by
  unfold toInt
  have h1 : z % 2 ^ 32 = z := by
    apply Int.emod_eq_of_lt <;> omega
  rw [h1, if_pos (by omega)]

/-- The `double` steps of the decoder are exact for a significand of at most 53
bits and an exponent of at least `-1074`. -/
theorem decode_double_steps (m k : Int) (hm : |m| < 2 ^ 53) (hk : -1074 ≤ k) :
    binary64.round ((m : ℚ) * binary64.round (ldexp 1 k)) = m * 2 ^ k := by
  have h1 : binary64.round (ldexp 1 k) = 2 ^ k := by
    have h := FloatFormat.round_int_mul_zpow binary64 1 k (by norm_num [binary64])
      (by simp only [binary64]; omega)
    simpa [ldexp] using h
  rw [h1]
  exact FloatFormat.round_int_mul_zpow binary64 m k (by simpa [binary64] using hm)
    (by simp only [binary64]; omega)

theorem GenericLinearColour.SumAbsRounded_three (F A : FloatFormat)
    (col : GenericLinearColour 3 ℚ) :
    col.SumAbsRounded F A =
      F.round (A.round (F.round (A.round (F.round (A.round (0 + |col.mColour 0|)) +
        |col.mColour 1|)) + |col.mColour 2|)) := rfl

/-! ## The compact codec -/

/-- C2: with `unsigned char` storage (any bias, so both `RadianceHDRColour` and
`PhotonColour`), encoding a vector whose `Max()` is at most `1e-32` succeeds and
yields a tuple whose mantissas are all `0` and whose exponent entry is `0`, the
minimum of the storage type. -/
theorem encode_degenerate_is_sentinel {kChannels : Nat} [NeZero kChannels] (kBias : Nat)
    (raw : Data kChannels) (col : GenericLinearColour kChannels ℚ) (dither : ℚ)
    (h : col.Max ≤ 1 / 10 ^ 32) :
    ∃ t, GenericCompactColour.ofLinearColour unsignedChar kBias raw col dither = some t ∧
      (∀ (i : Nat) (hi : i < kChannels), t.mData.get i (le_of_lt hi) = 0) ∧
      t.mData.get (kExp kChannels) (le_refl _) = 0 ∧
      t.mData.get (kExp kChannels) (le_refl _) = unsignedChar.min := by
  have hce := GenericCompactColour.ComputeExponent_of_le unsignedChar kBias col
    (by simpa [unsignedChar] using h)
  refine ⟨_, by simp only [GenericCompactColour.ofLinearColour, hce]; rfl, ?_, ?_, ?_⟩
  · intro i hi
    simp only [Data.get, Data.foldl_set_apply, List.mem_range]
    rw [if_pos (by omega)]
  · simp only [Data.get, Data.foldl_set_apply, List.mem_range]
    rw [if_pos (by simp [kExp])]
  · simp only [Data.get, Data.foldl_set_apply, List.mem_range]
    rw [if_pos (by simp [kExp])]
    rfl

/-- Witness for C2: the exact zero RGB vector, encoded as a `RadianceHDRColour`. -/
theorem encode_degenerate_is_sentinel_witness :
    ∃ t, GenericCompactColour.ofLinearColour unsignedChar RadianceHDRColour.kBias
        (fun _ => 7) (GenericRGBColour.ofRGB 0 0 0) 0 = some t ∧
      (∀ (i : Nat) (hi : i < ColourModelRGB.kChannels), t.mData.get i (le_of_lt hi) = 0) ∧
      t.mData.get (kExp ColourModelRGB.kChannels) (le_refl _) = 0 ∧
      t.mData.get (kExp ColourModelRGB.kChannels) (le_refl _) = unsignedChar.min :=
  encode_degenerate_is_sentinel RadianceHDRColour.kBias (fun _ => 7)
    (GenericRGBColour.ofRGB 0 0 0) 0
    (by rw [GenericRGBColour.ofRGB_Max]; norm_num)

/-- C3: decoding a compact tuple whose exponent entry equals the minimum of the
storage type gives the zero vector, whatever the mantissa entries are; and a
default-constructed compact colour decodes to the zero vector. -/
theorem decode_sentinel_is_zero {kChannels : Nat} (st : StorageType) (kBias : Nat) :
    (∀ col : GenericCompactColour kChannels,
        col.mData.get (kExp kChannels) (le_refl _) = st.min →
        GenericLinearColour.ofCompactColour st kBias col = GenericLinearColour.zero) ∧
      (∀ raw : Data kChannels,
        GenericLinearColour.ofCompactColour st kBias (GenericCompactColour.defaultConstructed st raw)
          = GenericLinearColour.zero) := by
  have key : ∀ col : GenericCompactColour kChannels,
      col.mData.get (kExp kChannels) (le_refl _) = st.min →
      GenericLinearColour.ofCompactColour st kBias col = GenericLinearColour.zero := by
    intro col h
    unfold GenericLinearColour.ofCompactColour
    rw [h, if_neg (lt_irrefl _)]
    rfl
  refine ⟨key, fun raw => key _ ?_⟩
  simp [GenericCompactColour.defaultConstructed, Data.get, Data.set]

/-- Witness for C3: a tuple with the sentinel exponent `0` and nonzero mantissas. -/
theorem decode_sentinel_is_zero_witness :
    GenericLinearColour.ofCompactColour unsignedChar RadianceHDRColour.kBias
        (⟨![200, 100, 50, 0, 9]⟩ : GenericCompactColour ColourModelRGB.kChannels)
      = GenericLinearColour.zero :=
  (decode_sentinel_is_zero unsignedChar RadianceHDRColour.kBias).1 ⟨![200, 100, 50, 0, 9]⟩
    (by decide)

/-- Counterexample for C7: with `float` channels the `PhotonColour` tuple
`(1, 2, 255 | 1)`, whose exponent entry `1` is not the sentinel `0`, decodes to
`(0, 0, 0)`, because every `mantissa * 2 ^ (1 - 250 - 8)` is below half the
smallest positive `float`; the blue channel is not the `255 * 2 ^ (-257)` of the
formula. -/
theorem decode_underflows_for_PhotonColour :
    Data.get (![1, 2, 255, 1, 0] : Data ColourModelRGB.kChannels)
        (kExp ColourModelRGB.kChannels) (le_refl _) ≠ unsignedChar.min ∧
      GenericLinearColour.ofCompactColourRounded binary32 unsignedChar PhotonColour.kBias
          (⟨![1, 2, 255, 1, 0]⟩ : GenericCompactColour ColourModelRGB.kChannels) =
        ⟨fun _ => 0⟩ ∧
      (GenericLinearColour.ofCompactColourRounded binary32 unsignedChar PhotonColour.kBias
          (⟨![1, 2, 255, 1, 0]⟩ : GenericCompactColour ColourModelRGB.kChannels)).mColour 2 ≠
        (255 : ℚ) * (2 : ℚ) ^ ((1 : Int) - (PhotonColour.kBias : Int) - 8) := by
  have key : ∀ m : Int, 0 ≤ m → m < 2 ^ 8 →
      binary32.round (binary64.round ((m : ℚ) *
        binary64.round (ldexp 1 (1 - toInt ((PhotonColour.kBias : Int) + 8))))) = 0 := by
    intro m h0 hm
    rw [toInt_of_lt _ (by norm_num) (by norm_num),
      decode_double_steps m _ (by rw [abs_of_nonneg h0]; omega) (by norm_num)]
    apply FloatFormat.round_of_lt_half_min
    · have : (0 : ℚ) ≤ (m : ℚ) := by exact_mod_cast h0
      positivity
    · have h8 : (m : ℚ) < 2 ^ 8 := by exact_mod_cast hm
      calc (m : ℚ) * 2 ^ ((1 : Int) - ((PhotonColour.kBias : Int) + 8))
          < 2 ^ 8 * 2 ^ ((1 : Int) - ((PhotonColour.kBias : Int) + 8)) :=
            mul_lt_mul_of_pos_right h8 (by positivity)
        _ ≤ 2 ^ (binary32.emin - (binary32.prec : Int)) := by
            norm_num [binary32]
  have hdec : GenericLinearColour.ofCompactColourRounded binary32 unsignedChar
      PhotonColour.kBias (⟨![1, 2, 255, 1, 0]⟩ : GenericCompactColour ColourModelRGB.kChannels) =
        ⟨fun _ => 0⟩ := by
    unfold GenericLinearColour.ofCompactColourRounded
    rw [if_pos (by decide)]
    ext i
    fin_cases i
    · exact key 1 (by norm_num) (by norm_num)
    · exact key 2 (by norm_num) (by norm_num)
    · exact key 255 (by norm_num) (by norm_num)
  refine ⟨by decide, hdec, ?_⟩
  rw [hdec]
  have hpos : (0 : ℚ) < (255 : ℚ) * (2 : ℚ) ^ ((1 : Int) - (PhotonColour.kBias : Int) - 8) := by
    positivity
  exact ne_of_lt hpos

/-- C7, amended: for a channel type `float` or `double` and a storage type whose
values are at least its minimum, decoding a tuple whose exponent entry `E` is
not the sentinel gives `channel[i] = mantissa[i] * 2 ^ (E - kBias - 8)` for
every channel `i` with an 8-bit mantissa, provided the exponent
`E - kBias - 8` is not below that of the smallest positive value of the channel
type (`-149` for `float`, `-1074` for `double`) and the value does not
overflow (`E - kBias - 8 ≤ emax - 7`). -/
theorem decode_channel_formula {kChannels : Nat} (F : FloatFormat) (st : StorageType)
    (kBias : Nat) (col : GenericCompactColour kChannels)
    (hF : F = binary32 ∨ F = binary64)
    (hrange : st.min ≤ col.mData.get (kExp kChannels) (le_refl _))
    (hne : col.mData.get (kExp kChannels) (le_refl _) ≠ st.min)
    (hbias : kBias + 8 < 2 ^ 31) (i : Fin kChannels)
    (hm : |col.mData.get i.val (le_of_lt i.isLt)| < 2 ^ 8)
    (hk : F.emin - (F.prec - 1) ≤
      col.mData.get (kExp kChannels) (le_refl _) - (kBias : Int) - 8)
    (_hov : col.mData.get (kExp kChannels) (le_refl _) - (kBias : Int) - 8 ≤ F.emax - 7) :
    (GenericLinearColour.ofCompactColourRounded F st kBias col).mColour i =
      (col.mData.get i.val (le_of_lt i.isLt) : ℚ) *
        (2 : ℚ) ^ (col.mData.get (kExp kChannels) (le_refl _) - (kBias : Int) - 8) := by
  have hgt : col.mData.get (kExp kChannels) (le_refl _) > st.min :=
    lt_of_le_of_ne hrange (Ne.symm hne)
  have hcast : toInt ((kBias : Int) + 8) = (kBias : Int) + 8 :=
    toInt_of_lt _ (by omega) (by omega)
  have hk64 : -1074 ≤ col.mData.get (kExp kChannels) (le_refl _) - ((kBias : Int) + 8) := by
    rcases hF with h | h <;> rw [h] at hk <;> simp only [binary32, binary64] at hk <;> omega
  have hprec : (2 : Int) ^ 8 ≤ 2 ^ F.prec := by
    rcases hF with h | h <;> rw [h] <;> norm_num [binary32, binary64]
  unfold GenericLinearColour.ofCompactColourRounded
  rw [if_pos hgt]
  show F.round (binary64.round ((col.mData.get i.val (le_of_lt i.isLt) : ℚ) *
    binary64.round (ldexp 1 (col.mData.get (kExp kChannels) (le_refl _) -
      toInt ((kBias : Int) + 8))))) = _
  rw [hcast, decode_double_steps _ _ (lt_trans hm (by norm_num)) hk64, ← sub_sub]
  exact FloatFormat.round_int_mul_zpow F _ _ (lt_of_lt_of_le hm hprec) hk

/-- Witness for C7, amended: `float` channels and the `RadianceHDRColour` tuple
`(128, 64, 32 | 129)`, red channel. -/
theorem decode_channel_formula_witness :
    (GenericLinearColour.ofCompactColourRounded binary32 unsignedChar RadianceHDRColour.kBias
        (⟨![128, 64, 32, 129, 0]⟩ : GenericCompactColour ColourModelRGB.kChannels)).mColour 0 =
      (Data.get (![128, 64, 32, 129, 0] : Data ColourModelRGB.kChannels) 0
          (le_of_lt (0 : Fin ColourModelRGB.kChannels).isLt) : ℚ) *
        (2 : ℚ) ^ (Data.get (![128, 64, 32, 129, 0] : Data ColourModelRGB.kChannels)
          (kExp ColourModelRGB.kChannels) (le_refl _) - (RadianceHDRColour.kBias : Int) - 8) :=
  decode_channel_formula binary32 unsignedChar RadianceHDRColour.kBias ⟨![128, 64, 32, 129, 0]⟩
    (Or.inl rfl) (by decide) (by decide) (by decide) 0 (by decide) (by decide) (by decide)

/-- C6: the encoding constructor reads past the last channel. For the RGB
vector `(1.0, 0.5, 0.25)` encoded as a `RadianceHDRColour`, `ComputeExponent`
returns `true`, the loop `for (i = 0; i <= kChannels; i++)` reaches
`i = kChannels = 3`, the access `col[3]` fails the assertion `idx < kChannels`
of `operator[]`, and so the constructor fails for every dither. -/
theorem encode_reads_channel_out_of_range :
    (GenericCompactColour.ComputeExponent unsignedChar RadianceHDRColour.kBias
        (GenericRGBColour.ofRGB 1 (1 / 2) (1 / 4))).scaleFactor.isSome = true ∧
      (GenericRGBColour.ofRGB (1 : ℚ) (1 / 2) (1 / 4)).subscript ColourModelRGB.kChannels = none ∧
      ∀ (raw : Data ColourModelRGB.kChannels) (dither : ℚ),
        GenericCompactColour.ofLinearColour unsignedChar RadianceHDRColour.kBias raw
          (GenericRGBColour.ofRGB 1 (1 / 2) (1 / 4)) dither = none := by
  have hsome : (GenericCompactColour.ComputeExponent unsignedChar RadianceHDRColour.kBias
      (GenericRGBColour.ofRGB 1 (1 / 2) (1 / 4))).scaleFactor.isSome = true := by
    apply GenericCompactColour.ComputeExponent_isSome
    rw [GenericRGBColour.ofRGB_Max]
    norm_num [unsignedChar]
  exact ⟨hsome, GenericLinearColour.subscript_kChannels _, fun raw dither =>
    GenericCompactColour.ofLinearColour_eq_none _ _ raw _ dither hsome⟩

/-- C4: for the RGB vector `(1.0, 0.5, 0.25)` and bias `128`, `ComputeExponent`
computes the biased exponent `129` and the scale factor `128`, but the encoding
constructor then fails at the access `col[3]`, so no tuple with exponent entry
`129` is produced. -/
theorem encode_one_half_quarter :
    (GenericCompactColour.ComputeExponent unsignedChar RadianceHDRColour.kBias
        (GenericRGBColour.ofRGB 1 (1 / 2) (1 / 4))).biasedExponent = 129 ∧
      (GenericCompactColour.ComputeExponent unsignedChar RadianceHDRColour.kBias
        (GenericRGBColour.ofRGB 1 (1 / 2) (1 / 4))).scaleFactor = some 128 ∧
      GenericCompactColour.ofLinearColour unsignedChar RadianceHDRColour.kBias (fun _ => 0)
        (GenericRGBColour.ofRGB 1 (1 / 2) (1 / 4)) 0 = none := by
  have hmax : (GenericRGBColour.ofRGB (1 : ℚ) (1 / 2) (1 / 4)).Max = 1 := by
    rw [GenericRGBColour.ofRGB_Max]
    norm_num
  have hce : GenericCompactColour.ComputeExponent unsignedChar RadianceHDRColour.kBias
      (GenericRGBColour.ofRGB 1 (1 / 2) (1 / 4)) = ⟨129, some 128⟩ := by
    unfold GenericCompactColour.ComputeExponent
    simp only [unsignedChar, Bool.false_eq_true, if_false, hmax, frexp_one]
    norm_num [clipToType, toUnsigned]
  refine ⟨by rw [hce], by rw [hce], ?_⟩
  apply GenericCompactColour.ofLinearColour_eq_none
  rw [hce]
  rfl

/-- C1: the round trip has no result for a non-degenerate vector. Encoding the
grey RGB vector `(1, 1, 1)` as a `RadianceHDRColour` with zero dither fails at
the access `col[3]`, so there is no encoded tuple to decode. -/
theorem roundtrip_grey_has_no_result :
    ∀ raw : Data ColourModelRGB.kChannels,
      (GenericCompactColour.ofLinearColour unsignedChar RadianceHDRColour.kBias raw
        (GenericLinearColour.ofGrey 1) 0).map
          (GenericLinearColour.ofCompactColour unsignedChar RadianceHDRColour.kBias) = none := by
  intro raw
  rw [GenericCompactColour.ofLinearColour_eq_none]
  · rfl
  · apply GenericCompactColour.ComputeExponent_isSome
    rw [GenericLinearColour.Max_three]
    norm_num [unsignedChar, GenericLinearColour.ofGrey]

/-- C5: the array `Data` of a compact colour has `kCoefficients + 1`, that is
`kChannels + 2`, elements; for `RadianceHDRColour` it has `5` elements, one more
than the three mantissas and the exponent at index `kExp = 3`. -/
theorem data_has_one_element_too_many :
    dataSize ColourModelRGB.kChannels = 5 ∧
      kCoefficients ColourModelRGB.kChannels = 4 ∧
      kExp ColourModelRGB.kChannels = 3 ∧
      ∀ kChannels : Nat, dataSize kChannels = kChannels + 2 :=
  ⟨rfl, rfl, rfl, fun _ => rfl⟩

/-! ## Conversions between colour types -/

/-- Counterexample for C8: for `float` channels and `alpha = 0.1f`, which is
`13421773 / 2 ^ 27`, `AtoFT` writes `t = 15099494 / 2 ^ 24`, the `float` nearest
to `1 - alpha`, and `FTtoA` returns `1677722 / 2 ^ 24 = 0.10000002384...`, which
is not `alpha`; the same for the member pair on the black RGBFT colour. -/
theorem AtoFT_then_FTtoA_of_one_tenth :
    binary32.IsValue (13421773 / 2 ^ 27) ∧
      GenericRGBFTColour.staticAtoFT binary32 (13421773 / 2 ^ 27) = (0, 15099494 / 2 ^ 24) ∧
      GenericRGBFTColour.staticFTtoA binary32
        (GenericRGBFTColour.staticAtoFT binary32 (13421773 / 2 ^ 27)).1
        (GenericRGBFTColour.staticAtoFT binary32 (13421773 / 2 ^ 27)).2 = 1677722 / 2 ^ 24 ∧
      GenericRGBFTColour.staticFTtoA binary32
        (GenericRGBFTColour.staticAtoFT binary32 (13421773 / 2 ^ 27)).1
        (GenericRGBFTColour.staticAtoFT binary32 (13421773 / 2 ^ 27)).2 ≠ 13421773 / 2 ^ 27 ∧
      ((GenericRGBFTColour.ofColourFT (GenericRGBColour.ofRGB 0 0 0) 0 0).AtoFT binary32
        (13421773 / 2 ^ 27)).FTtoARounded binary32 ≠ 13421773 / 2 ^ 27 := by
  have halpha : binary32.IsValue (13421773 / 2 ^ 27) := by
    have h := FloatFormat.isValue_int_mul_zpow binary32 13421773 (-27) (by norm_num [binary32])
      (by norm_num [binary32]) (by norm_num [binary32])
    have e : ((13421773 : Int) : ℚ) * 2 ^ (-27 : Int) = 13421773 / 2 ^ 27 := by norm_num
    rwa [e] at h
  have ht : binary32.round (1 - 13421773 / 2 ^ 27) = 15099494 / 2 ^ 24 := by
    have h := FloatFormat.round_eq binary32 (1 - 13421773 / 2 ^ 27) (-1) 15099494
      (by norm_num) (by norm_num) (by norm_num)
      (by
        apply roundHalfEven_of_lt_half
        · norm_num [binary32]
        · norm_num [binary32])
    rw [h]
    norm_num [binary32]
  have ha : binary32.round (1 - 15099494 / 2 ^ 24) = 1677722 / 2 ^ 24 := by
    have h := FloatFormat.round_int_mul_zpow binary32 1677722 (-24) (by norm_num [binary32])
      (by norm_num [binary32])
    have e : ((1677722 : Int) : ℚ) * 2 ^ (-24 : Int) = 1 - 15099494 / 2 ^ 24 := by norm_num
    have e2 : ((1677722 : Int) : ℚ) * 2 ^ (-24 : Int) = 1677722 / 2 ^ 24 := by norm_num
    rw [e] at h
    rw [h, ← e, e2]
  have hst : GenericRGBFTColour.staticAtoFT binary32 (13421773 / 2 ^ 27) =
      (0, 15099494 / 2 ^ 24) := by
    unfold GenericRGBFTColour.staticAtoFT
    rw [ht]
  have hback : GenericRGBFTColour.staticFTtoA binary32
      (GenericRGBFTColour.staticAtoFT binary32 (13421773 / 2 ^ 27)).1
      (GenericRGBFTColour.staticAtoFT binary32 (13421773 / 2 ^ 27)).2 = 1677722 / 2 ^ 24 := by
    rw [hst]
    exact ha
  refine ⟨halpha, hst, hback, ?_, ?_⟩
  · rw [hback]
    norm_num
  · show binary32.round (1 - binary32.round (1 - 13421773 / 2 ^ 27)) ≠ 13421773 / 2 ^ 27
    rw [ht, ha]
    norm_num

/-- C8, amended: for a channel type `F`, when `alpha` is a value of the channel
type and `1 - alpha` is one too, `AtoFT(alpha)` writes `(f, t) = (0, 1 - alpha)`
and `AtoFT(alpha)` followed by `FTtoA()` returns `alpha` exactly, for the static
pair and for the member pair on every RGBFT colour; the member pair leaves red,
green and blue unchanged. -/
theorem AtoFT_then_FTtoA (F : FloatFormat) (alpha : ℚ) (x : GenericRGBFTColour ℚ)
    (halpha : F.IsValue alpha) (ht : F.IsValue (1 - alpha)) :
    GenericRGBFTColour.staticAtoFT F alpha = (0, 1 - alpha) ∧
      GenericRGBFTColour.staticFTtoA F (GenericRGBFTColour.staticAtoFT F alpha).1
        (GenericRGBFTColour.staticAtoFT F alpha).2 = alpha ∧
      (x.AtoFT F alpha).FTtoARounded F = alpha ∧
      (x.AtoFT F alpha).red = x.red ∧ (x.AtoFT F alpha).green = x.green ∧
      (x.AtoFT F alpha).blue = x.blue := by
  have h : F.round (1 - F.round (1 - alpha)) = alpha := by
    rw [ht.1, sub_sub_cancel, halpha.1]
  refine ⟨?_, ?_, ?_, rfl, rfl, rfl⟩
  · unfold GenericRGBFTColour.staticAtoFT
    rw [ht.1]
  · exact h
  · exact h

/-- Witness for C8, amended: `float` channels, `alpha = 1/4` and the RGBFT
colour `(1, 1/2, 1/4, 1/2, 1/2)`. -/
theorem AtoFT_then_FTtoA_witness :
    GenericRGBFTColour.staticAtoFT binary32 (1 / 4) = (0, 1 - 1 / 4) ∧
      GenericRGBFTColour.staticFTtoA binary32
        (GenericRGBFTColour.staticAtoFT binary32 (1 / 4)).1
        (GenericRGBFTColour.staticAtoFT binary32 (1 / 4)).2 = 1 / 4 ∧
      (GenericRGBFTColour.AtoFT
        (GenericRGBFTColour.ofColourFT (GenericRGBColour.ofRGB 1 (1 / 2) (1 / 4)) (1 / 2) (1 / 2))
        binary32 (1 / 4)).FTtoARounded binary32 = 1 / 4 ∧
      (GenericRGBFTColour.AtoFT
        (GenericRGBFTColour.ofColourFT (GenericRGBColour.ofRGB 1 (1 / 2) (1 / 4)) (1 / 2) (1 / 2))
        binary32 (1 / 4)).red =
        (GenericRGBFTColour.ofColourFT (GenericRGBColour.ofRGB 1 (1 / 2) (1 / 4))
          (1 / 2) (1 / 2)).red ∧
      (GenericRGBFTColour.AtoFT
        (GenericRGBFTColour.ofColourFT (GenericRGBColour.ofRGB 1 (1 / 2) (1 / 4)) (1 / 2) (1 / 2))
        binary32 (1 / 4)).green =
        (GenericRGBFTColour.ofColourFT (GenericRGBColour.ofRGB 1 (1 / 2) (1 / 4))
          (1 / 2) (1 / 2)).green ∧
      (GenericRGBFTColour.AtoFT
        (GenericRGBFTColour.ofColourFT (GenericRGBColour.ofRGB 1 (1 / 2) (1 / 4)) (1 / 2) (1 / 2))
        binary32 (1 / 4)).blue =
        (GenericRGBFTColour.ofColourFT (GenericRGBColour.ofRGB 1 (1 / 2) (1 / 4))
          (1 / 2) (1 / 2)).blue :=
  AtoFT_then_FTtoA binary32 (1 / 4)
    (GenericRGBFTColour.ofColourFT (GenericRGBColour.ofRGB 1 (1 / 2) (1 / 4)) (1 / 2) (1 / 2))
    (by
      have h := FloatFormat.isValue_int_mul_zpow binary32 1 (-2) (by norm_num [binary32])
        (by norm_num [binary32]) (by norm_num [binary32])
      have e : ((1 : Int) : ℚ) * 2 ^ (-2 : Int) = 1 / 4 := by norm_num
      rwa [e] at h)
    (by
      have h := FloatFormat.isValue_int_mul_zpow binary32 3 (-2) (by norm_num [binary32])
        (by norm_num [binary32]) (by norm_num [binary32])
      have e : ((3 : Int) : ℚ) * 2 ^ (-2 : Int) = 1 - 1 / 4 := by norm_num
      rwa [e] at h)

/-- C10: narrowing an RGBFT colour to RGB drops filter and transmit: for every
`rgb` and all `f1`, `t1`, `f2`, `t2`, `RGBColour(RGBFTColour(rgb, f1, t1))` and
`RGBColour(RGBFTColour(rgb, f2, t2))` are equal, and both equal `rgb`. -/
theorem RGB_of_RGBFT_drops_transparency (rgb : GenericRGBColour ℚ) (f1 t1 f2 t2 : ℚ) :
    GenericRGBColour.ofRGBFT (GenericRGBFTColour.ofColourFT rgb f1 t1) =
        GenericRGBColour.ofRGBFT (GenericRGBFTColour.ofColourFT rgb f2 t2) ∧
      GenericRGBColour.ofRGBFT (GenericRGBFTColour.ofColourFT rgb f2 t2) = rgb :=
  ⟨rfl, rfl⟩

/-- C11: for every `rgb` and `t`, `RGBFTColour(RGBTColour(rgb, t))` has the red,
green and blue of `rgb`, `filter() == 0` and `transm() == t`; its `FTtoA()` and
its `opacity()` both equal `alpha()` of the RGBT colour, which is `1 - t`. -/
theorem RGBFT_of_RGBT_widens (rgb : GenericRGBColour ℚ) (t : ℚ) :
    (GenericRGBFTColour.ofRGBT (GenericRGBTColour.ofColourT rgb t)).red = rgb.red ∧
      (GenericRGBFTColour.ofRGBT (GenericRGBTColour.ofColourT rgb t)).green = rgb.green ∧
      (GenericRGBFTColour.ofRGBT (GenericRGBTColour.ofColourT rgb t)).blue = rgb.blue ∧
      (GenericRGBFTColour.ofRGBT (GenericRGBTColour.ofColourT rgb t)).filter = 0 ∧
      (GenericRGBFTColour.ofRGBT (GenericRGBTColour.ofColourT rgb t)).transm = t ∧
      (GenericRGBFTColour.ofRGBT (GenericRGBTColour.ofColourT rgb t)).FTtoA =
        (GenericRGBTColour.ofColourT rgb t).alpha ∧
      (GenericRGBFTColour.ofRGBT (GenericRGBTColour.ofColourT rgb t)).opacity =
        (GenericRGBTColour.ofColourT rgb t).alpha ∧
      (GenericRGBTColour.ofColourT rgb t).alpha = 1 - t := by
  refine ⟨rfl, rfl, rfl, rfl, rfl, rfl, ?_, rfl⟩
  simp [GenericRGBFTColour.opacity, GenericRGBFTColour.ofRGBT, GenericRGBTColour.alpha,
    GenericRGBTColour.transm]

/-- C12: converting an RGBFT colour `x` to a `TransColour` and that back to RGBFT
gives the red, green, blue, filter and transmit of `x`, hence `x` itself. -/
theorem RGBFT_TransColour_roundtrip (x : GenericRGBFTColour ℚ) (rawFilter rawTransm : ℚ) :
    (GenericRGBFTColour.ofTransColour (GenericTransColour.ofRGBFT rawFilter rawTransm x)).red
        = x.red ∧
      (GenericRGBFTColour.ofTransColour (GenericTransColour.ofRGBFT rawFilter rawTransm x)).green
        = x.green ∧
      (GenericRGBFTColour.ofTransColour (GenericTransColour.ofRGBFT rawFilter rawTransm x)).blue
        = x.blue ∧
      (GenericRGBFTColour.ofTransColour (GenericTransColour.ofRGBFT rawFilter rawTransm x)).filter
        = x.filter ∧
      (GenericRGBFTColour.ofTransColour (GenericTransColour.ofRGBFT rawFilter rawTransm x)).transm
        = x.transm ∧
      GenericRGBFTColour.ofTransColour (GenericTransColour.ofRGBFT rawFilter rawTransm x) = x := by
  refine ⟨rfl, rfl, rfl, rfl, rfl, ?_⟩
  ext i
  · fin_cases i <;> rfl
  · rfl
  · rfl

/-! ## Clipping -/

/-- C13: for bounds `minc ≤ maxc`, every channel of `x.Clipped(minc, maxc)` and
of `x` after `x.Clip(minc, maxc)` lies in `[minc, maxc]`, a channel that already
lies in `[minc, maxc]` keeps its value, and `Clipped` leaves `x` unchanged. -/
theorem Clip_into_bounds {kChannels : Nat} (x : GenericLinearColour kChannels ℚ)
    (minc maxc : ℚ) (h : minc ≤ maxc) :
    (∀ i, minc ≤ (x.Clipped minc maxc).2.mColour i ∧ (x.Clipped minc maxc).2.mColour i ≤ maxc) ∧
      (∀ i, minc ≤ (x.Clip minc maxc).mColour i ∧ (x.Clip minc maxc).mColour i ≤ maxc) ∧
      (∀ i, minc ≤ x.mColour i → x.mColour i ≤ maxc →
        (x.Clipped minc maxc).2.mColour i = x.mColour i ∧
          (x.Clip minc maxc).mColour i = x.mColour i) ∧
      (x.Clipped minc maxc).1 = x :=
  ⟨fun i => clip_mem (x.mColour i) minc maxc h, fun i => clip_mem (x.mColour i) minc maxc h,
    fun i h1 h2 => ⟨clip_of_mem (x.mColour i) minc maxc h1 h2,
      clip_of_mem (x.mColour i) minc maxc h1 h2⟩, rfl⟩

/-- Witness for C13: the RGB colour `(-1, 1/2, 2)` clipped to `[0, 1]`. -/
theorem Clip_into_bounds_witness :
    (∀ i, (0 : ℚ) ≤ ((GenericRGBColour.ofRGB (-1 : ℚ) (1 / 2) 2).Clipped 0 1).2.mColour i ∧
        ((GenericRGBColour.ofRGB (-1 : ℚ) (1 / 2) 2).Clipped 0 1).2.mColour i ≤ 1) ∧
      (∀ i, (0 : ℚ) ≤ ((GenericRGBColour.ofRGB (-1 : ℚ) (1 / 2) 2).Clip 0 1).mColour i ∧
        ((GenericRGBColour.ofRGB (-1 : ℚ) (1 / 2) 2).Clip 0 1).mColour i ≤ 1) ∧
      (∀ i, (0 : ℚ) ≤ (GenericRGBColour.ofRGB (-1 : ℚ) (1 / 2) 2).mColour i →
        (GenericRGBColour.ofRGB (-1 : ℚ) (1 / 2) 2).mColour i ≤ 1 →
        ((GenericRGBColour.ofRGB (-1 : ℚ) (1 / 2) 2).Clipped 0 1).2.mColour i =
            (GenericRGBColour.ofRGB (-1 : ℚ) (1 / 2) 2).mColour i ∧
          ((GenericRGBColour.ofRGB (-1 : ℚ) (1 / 2) 2).Clip 0 1).mColour i =
            (GenericRGBColour.ofRGB (-1 : ℚ) (1 / 2) 2).mColour i) ∧
      ((GenericRGBColour.ofRGB (-1 : ℚ) (1 / 2) 2).Clipped 0 1).1 =
        GenericRGBColour.ofRGB (-1 : ℚ) (1 / 2) 2 :=
  Clip_into_bounds (GenericRGBColour.ofRGB (-1 : ℚ) (1 / 2) 2) 0 1 (by norm_num)

/-- C14: clipping is idempotent for every vector and all bounds, both in place
(`Clip` after `Clip`) and for the returned copies (`Clipped` of `Clipped`). -/
theorem Clip_idempotent {kChannels : Nat} (x : GenericLinearColour kChannels ℚ)
    (minc maxc : ℚ) :
    (x.Clip minc maxc).Clip minc maxc = x.Clip minc maxc ∧
      ((x.Clipped minc maxc).2.Clipped minc maxc).2 = (x.Clipped minc maxc).2 := by
  constructor
  · ext i
    exact clip_clip (x.mColour i) minc maxc
  · ext i
    exact clip_clip (x.mColour i) minc maxc

/-! ## Validity and zero tests -/

/-- C15: over the channel type with a NaN that compares non-equal to itself,
`IsValid()` of a vector is `false` if and only if some channel is NaN; for an
RGBFT colour, an RGBT colour and a `TransColour`, `IsValid()` is `false` if and
only if some colour channel, the filter or the transmit is NaN. -/
theorem IsValid_false_iff_some_NaN {kChannels : Nat}
    (col : GenericLinearColour kChannels NaNChannel) (x : GenericRGBFTColour NaNChannel)
    (y : GenericRGBTColour NaNChannel) (z : GenericTransColour NaNChannel) :
    (NaNChannel.quiet_NaN == NaNChannel.quiet_NaN) = false ∧
      (col.IsValid = false ↔ ∃ i, col.mColour i = NaNChannel.quiet_NaN) ∧
      (x.IsValid = false ↔
        (∃ i, x.mColour.mColour i = NaNChannel.quiet_NaN) ∨
          x.mFilter = NaNChannel.quiet_NaN ∨ x.mTransm = NaNChannel.quiet_NaN) ∧
      (y.IsValid = false ↔
        (∃ i, y.mColour.mColour i = NaNChannel.quiet_NaN) ∨ y.mTransm = NaNChannel.quiet_NaN) ∧
      (z.IsValid = false ↔
        (∃ i, z.mColour.mColour i = NaNChannel.quiet_NaN) ∨
          z.mFilter = NaNChannel.quiet_NaN ∨ z.mTransm = NaNChannel.quiet_NaN) := by
  refine ⟨rfl, GenericLinearColour.IsValid_eq_false_iff col, ?_, ?_, ?_⟩
  · unfold GenericRGBFTColour.IsValid
    rw [Bool.and_eq_false_iff, Bool.and_eq_false_iff, GenericLinearColour.IsValid_eq_false_iff,
      NaNChannel.beq_self_eq_false, NaNChannel.beq_self_eq_false, or_assoc]
  · unfold GenericRGBTColour.IsValid
    rw [Bool.and_eq_false_iff, GenericLinearColour.IsValid_eq_false_iff,
      NaNChannel.beq_self_eq_false]
  · unfold GenericTransColour.IsValid
    rw [Bool.and_eq_false_iff, Bool.and_eq_false_iff, GenericLinearColour.IsValid_eq_false_iff,
      NaNChannel.beq_self_eq_false, NaNChannel.beq_self_eq_false, or_assoc]

/-- C16: after `Invalidate()` on a vector with at least one channel, whatever
its previous channels, `IsValid()` is `false` and `IsZero()` is `false`. -/
theorem Invalidate_not_valid_not_zero {kChannels : Nat} [NeZero kChannels]
    (col : GenericLinearColour kChannels NaNChannel) :
    col.Invalidate.IsValid = false ∧ col.Invalidate.IsZero = false := by
  constructor
  · rw [GenericLinearColour.IsValid_eq_false_iff]
    exact ⟨0, rfl⟩
  · rw [← Bool.not_eq_true, GenericLinearColour.IsZero_eq_true_iff]
    intro h
    have h0 := h 0
    rw [show col.Invalidate.mColour 0 = NaNChannel.quiet_NaN from rfl,
      NaNChannel.quiet_NaN_beq] at h0
    exact Bool.false_ne_true h0

/-- Witness for C16: the RGB vector `(1, 0, 0)`. -/
theorem Invalidate_not_valid_not_zero_witness :
    (GenericLinearColour.Invalidate
        (GenericRGBColour.ofRGB (NaNChannel.finite 1) 0 0)).IsValid = false ∧
      (GenericLinearColour.Invalidate
        (GenericRGBColour.ofRGB (NaNChannel.finite 1) 0 0)).IsZero = false :=
  Invalidate_not_valid_not_zero (GenericRGBColour.ofRGB (NaNChannel.finite 1) 0 0)

/-! ## Elementwise algebra -/

/-- C17: in exact arithmetic `(a + b) - b` equals `a` channel by channel, and the
in-place sequence `a += b; a -= b` restores `a`. -/
theorem add_then_sub_restores {kChannels : Nat} (a b : GenericLinearColour kChannels ℚ) :
    (∀ i, ((a.add b).sub b).mColour i = a.mColour i) ∧
      (a.add b).sub b = a ∧
      (a.addAssign b).subAssign b = a := by
  refine ⟨fun i => ?_, ?_, ?_⟩
  · simp [GenericLinearColour.add, GenericLinearColour.sub]
  · ext i
    simp [GenericLinearColour.add, GenericLinearColour.sub]
  · ext i
    simp [GenericLinearColour.addAssign, GenericLinearColour.subAssign]

/-- C18: for every vector `a`, `(a - a).IsZero()` is `true` and
`ColourDistance(a, a)` is `0`; the default-constructed vector satisfies
`IsZero()`. -/
theorem sub_self_IsZero {kChannels : Nat} (a : GenericLinearColour kChannels ℚ) :
    (a.sub a).IsZero = true ∧ ColourDistance a a = 0 ∧
      (GenericLinearColour.zero : GenericLinearColour kChannels ℚ).IsZero = true := by
  refine ⟨?_, ?_, ?_⟩
  · rw [GenericLinearColour.IsZero_eq_true_iff]
    intro i
    simp [GenericLinearColour.sub]
  · unfold ColourDistance GenericLinearColour.SumAbs
    apply foldl_add_abs_of_zero
    intro i
    simp [GenericLinearColour.sub]
  · rw [GenericLinearColour.IsZero_eq_true_iff]
    intro i
    simp [GenericLinearColour.zero]

/-! ## Greyscale and weight -/

/-- C19: for every RGB colour `Greyscale()` is
`0.297 * red + 0.589 * green + 0.114 * blue` and `Weight()` is
`(|red| + |green| + |blue|) / 3`; for the colour `(-1, 0, 0)` the greyscale is
`-0.297`, which is negative, and the weight is `1/3`. -/
theorem Greyscale_and_Weight :
    (∀ col : GenericRGBColour ℚ,
        col.Greyscale = 297 / 1000 * col.red + 589 / 1000 * col.green + 114 / 1000 * col.blue ∧
          col.Weight = (|col.red| + |col.green| + |col.blue|) / 3) ∧
      (GenericRGBColour.ofRGB (-1 : ℚ) 0 0).Greyscale = -(297 / 1000) ∧
      (GenericRGBColour.ofRGB (-1 : ℚ) 0 0).Greyscale < 0 ∧
      (GenericRGBColour.ofRGB (-1 : ℚ) 0 0).Weight = 1 / 3 := by
  have hg : (GenericRGBColour.ofRGB (-1 : ℚ) 0 0).Greyscale = -(297 / 1000) := by
    unfold GenericRGBColour.Greyscale
    rw [GenericRGBColour.ofRGB_red, GenericRGBColour.ofRGB_green, GenericRGBColour.ofRGB_blue]
    norm_num [kRedIntensity]
  refine ⟨fun col => ⟨rfl, rfl⟩, hg, by rw [hg]; norm_num, ?_⟩
  unfold GenericRGBColour.Weight
  rw [GenericRGBColour.ofRGB_red, GenericRGBColour.ofRGB_green, GenericRGBColour.ofRGB_blue]
  norm_num

/-- C20: white has a weight of `1`: `Weight()` of the RGB colour `(1, 1, 1)` and
`Weight()` of the internal colour constructed from grey `1` both equal `1`. -/
theorem Weight_of_white :
    (GenericRGBColour.ofRGB (1 : ℚ) 1 1).Weight = 1 ∧
      (GenericColour.ofGrey (1 : ℚ)).Weight = 1 := by
  constructor
  · unfold GenericRGBColour.Weight
    rw [GenericRGBColour.ofRGB_red, GenericRGBColour.ofRGB_green, GenericRGBColour.ofRGB_blue]
    norm_num
  · unfold GenericColour.Weight
    rw [GenericLinearColour.SumAbs_three]
    norm_num [GenericColour.ofGrey, GenericLinearColour.ofGrey]

/-- Counterexample for C21: the RGB colour `(2 ^ (-149), 0, 0)`, whose red
channel is the smallest positive `float`, is not zero, yet with `float` channels
its `Weight()` is `0`: the `double` quotient `2 ^ (-149) / 3` is below half the
smallest positive `float` and the conversion to the channel type gives `0`,
whether the sum is evaluated in `float` or in `double`. The same holds for the
internal colour with these channels. -/
theorem Weight_zero_of_nonzero_colour :
    binary32.IsValue (1 / 2 ^ 149) ∧
      GenericLinearColour.IsZero (GenericRGBColour.ofRGB (1 / 2 ^ 149 : ℚ) 0 0) = false ∧
      GenericRGBColour.WeightRounded binary32 binary32
        (GenericRGBColour.ofRGB (1 / 2 ^ 149) 0 0) = 0 ∧
      GenericRGBColour.WeightRounded binary32 binary64
        (GenericRGBColour.ofRGB (1 / 2 ^ 149) 0 0) = 0 ∧
      GenericLinearColour.IsZero
        (GenericColour.ofRGBColour (GenericRGBColour.ofRGB (1 / 2 ^ 149 : ℚ) 0 0)) = false ∧
      GenericColour.WeightRounded binary32 binary32
        (GenericColour.ofRGBColour (GenericRGBColour.ofRGB (1 / 2 ^ 149) 0 0)) = 0 := by
  have e : ((1 : Int) : ℚ) * 2 ^ (-149 : Int) = 1 / 2 ^ 149 := by norm_num
  have hv : binary32.IsValue (1 / 2 ^ 149) := by
    have h := FloatFormat.isValue_int_mul_zpow binary32 1 (-149) (by norm_num [binary32])
      (by norm_num [binary32]) (by norm_num [binary32])
    rwa [e] at h
  have h32 : binary32.round (1 / 2 ^ 149) = 1 / 2 ^ 149 := hv.1
  have h64 : binary64.round (1 / 2 ^ 149) = 1 / 2 ^ 149 := by
    have h := FloatFormat.round_int_mul_zpow binary64 1 (-149) (by norm_num [binary64])
      (by norm_num [binary64])
    rwa [e] at h
  have hq : binary64.round (1 / 2 ^ 149 / 3) = 6004799503160661 * 2 ^ (-203 : Int) := by
    have h := FloatFormat.round_eq binary64 (1 / 2 ^ 149 / 3) (-151) 6004799503160661
      (by norm_num) (by norm_num) (by norm_num)
      (by
        apply roundHalfEven_of_lt_half
        · norm_num [binary64]
        · norm_num [binary64])
    rw [h]
    norm_num [binary64]
  have hw : binary32.round (binary64.round (1 / 2 ^ 149 / 3)) = 0 := by
    rw [hq]
    apply FloatFormat.round_of_lt_half_min
    · positivity
    · norm_num [binary32]
  have hz : GenericLinearColour.IsZero (GenericRGBColour.ofRGB (1 / 2 ^ 149 : ℚ) 0 0) = false := by
    rw [Bool.eq_false_iff, Ne, GenericLinearColour.IsZero_three]
    rintro ⟨h, _⟩
    rw [GenericRGBColour.ofRGB_red] at h
    norm_num at h
  have hz2 : GenericLinearColour.IsZero
      (GenericColour.ofRGBColour (GenericRGBColour.ofRGB (1 / 2 ^ 149 : ℚ) 0 0)) = false := by
    rw [Bool.eq_false_iff, Ne, GenericLinearColour.IsZero_three]
    rintro ⟨h, _⟩
    have h2 : (GenericColour.ofRGBColour (GenericRGBColour.ofRGB (1 / 2 ^ 149 : ℚ) 0 0)).mColour 0 =
        1 / 2 ^ 149 := rfl
    rw [h2] at h
    norm_num at h
  have hr : (GenericRGBColour.ofRGB (1 / 2 ^ 149 : ℚ) 0 0).mColour ColourModelRGB.kRed =
      1 / 2 ^ 149 := rfl
  have hg : (GenericRGBColour.ofRGB (1 / 2 ^ 149 : ℚ) 0 0).mColour ColourModelRGB.kGreen = 0 := rfl
  have hb : (GenericRGBColour.ofRGB (1 / 2 ^ 149 : ℚ) 0 0).mColour ColourModelRGB.kBlue = 0 := rfl
  have habs : |(1 / 2 ^ 149 : ℚ)| = 1 / 2 ^ 149 := abs_of_pos (by positivity)
  refine ⟨hv, hz, ?_, ?_, hz2, ?_⟩
  · unfold GenericRGBColour.WeightRounded
    simp only [hr, hg, hb, habs, abs_zero, add_zero, h32]
    exact hw
  · unfold GenericRGBColour.WeightRounded
    simp only [hr, hg, hb, habs, abs_zero, add_zero, h64]
    exact hw
  · unfold GenericColour.WeightRounded
    rw [GenericLinearColour.SumAbsRounded_three]
    have c0 : (GenericColour.ofRGBColour (GenericRGBColour.ofRGB (1 / 2 ^ 149 : ℚ) 0 0)).mColour 0 =
        1 / 2 ^ 149 := rfl
    have c1 : (GenericColour.ofRGBColour (GenericRGBColour.ofRGB (1 / 2 ^ 149 : ℚ) 0 0)).mColour 1 =
        0 := rfl
    have c2 : (GenericColour.ofRGBColour (GenericRGBColour.ofRGB (1 / 2 ^ 149 : ℚ) 0 0)).mColour 2 =
        0 := rfl
    simp only [c0, c1, c2, habs, abs_zero, zero_add, add_zero, h32]
    exact hw

/-- C21, amended: for every RGB colour and every internal colour `Weight()` is
non-negative and is `0` when `IsZero()` holds, whatever the floating-point
formats of the channel type and of the sum; in exact arithmetic `Weight()` is
`0` if and only if `IsZero()` holds. -/
theorem Weight_nonneg_and_zero_of_IsZero (F A : FloatFormat) (c : GenericRGBColour ℚ)
    (d : GenericColour ℚ) :
    0 ≤ GenericRGBColour.WeightRounded F A c ∧
      (GenericLinearColour.IsZero c = true → GenericRGBColour.WeightRounded F A c = 0) ∧
      0 ≤ GenericColour.WeightRounded F A d ∧
      (GenericLinearColour.IsZero d = true → GenericColour.WeightRounded F A d = 0) ∧
      0 ≤ GenericRGBColour.Weight c ∧
      (GenericRGBColour.Weight c = 0 ↔ GenericLinearColour.IsZero c = true) ∧
      0 ≤ GenericColour.Weight d ∧
      (GenericColour.Weight d = 0 ↔ GenericLinearColour.IsZero d = true) := by
  refine ⟨?_, ?_, ?_, ?_, ?_, ?_, ?_, ?_⟩
  · unfold GenericRGBColour.WeightRounded
    apply FloatFormat.round_nonneg
    apply FloatFormat.round_nonneg
    apply div_nonneg _ (by norm_num)
    apply FloatFormat.round_nonneg
    apply add_nonneg _ (abs_nonneg _)
    apply FloatFormat.round_nonneg
    exact add_nonneg (abs_nonneg _) (abs_nonneg _)
  · intro h
    rw [GenericLinearColour.IsZero_three] at h
    obtain ⟨h0, h1, h2⟩ := h
    have hr : c.mColour ColourModelRGB.kRed = 0 := h0
    have hg : c.mColour ColourModelRGB.kGreen = 0 := h1
    have hb : c.mColour ColourModelRGB.kBlue = 0 := h2
    unfold GenericRGBColour.WeightRounded
    rw [hr, hg, hb]
    simp [FloatFormat.round_zero]
  · unfold GenericColour.WeightRounded
    rw [GenericLinearColour.SumAbsRounded_three]
    apply FloatFormat.round_nonneg
    apply FloatFormat.round_nonneg
    apply div_nonneg _ (by norm_num)
    apply FloatFormat.round_nonneg
    apply FloatFormat.round_nonneg
    apply add_nonneg _ (abs_nonneg _)
    apply FloatFormat.round_nonneg
    apply FloatFormat.round_nonneg
    apply add_nonneg _ (abs_nonneg _)
    apply FloatFormat.round_nonneg
    apply FloatFormat.round_nonneg
    exact add_nonneg (le_refl _) (abs_nonneg _)
  · intro h
    rw [GenericLinearColour.IsZero_three] at h
    obtain ⟨h0, h1, h2⟩ := h
    unfold GenericColour.WeightRounded
    rw [GenericLinearColour.SumAbsRounded_three, h0, h1, h2]
    simp [FloatFormat.round_zero]
  · unfold GenericRGBColour.Weight
    positivity
  · rw [GenericLinearColour.IsZero_three]
    exact abs_sum_three_eq_zero_iff _ _ _
  · unfold GenericColour.Weight
    rw [GenericLinearColour.SumAbs_three]
    positivity
  · unfold GenericColour.Weight
    rw [GenericLinearColour.SumAbs_three, GenericLinearColour.IsZero_three]
    exact abs_sum_three_eq_zero_iff _ _ _

/-- C22: for every RGB colour and every internal colour `c` and every scalar
`k`, `Weight(c * k) = |k| * Weight(c)`, and replacing any single component of
`c` by its negative leaves `Weight(c)` unchanged. -/
theorem Weight_scales_and_ignores_sign (c : GenericRGBColour ℚ) (d : GenericColour ℚ) (k : ℚ)
    (i : Fin 3) :
    GenericRGBColour.Weight (c.mulScalar k) = |k| * GenericRGBColour.Weight c ∧
      GenericColour.Weight (d.mulScalar k) = |k| * GenericColour.Weight d ∧
      GenericRGBColour.Weight ⟨Function.update c.mColour i (-c.mColour i)⟩ =
        GenericRGBColour.Weight c ∧
      GenericColour.Weight ⟨Function.update d.mColour i (-d.mColour i)⟩ =
        GenericColour.Weight d := by
  refine ⟨?_, ?_, ?_, ?_⟩
  · simp only [GenericRGBColour.Weight, GenericLinearColour.mulScalar, abs_mul]
    ring
  · simp only [GenericColour.Weight, GenericLinearColour.SumAbs_three,
      GenericLinearColour.mulScalar, abs_mul]
    ring
  · rw [GenericRGBColour.Weight_eq, GenericRGBColour.Weight_eq]
    fin_cases i <;> simp [Function.update]
  · fin_cases i <;>
      simp [GenericColour.Weight, GenericLinearColour.SumAbs_three, Function.update]

/-- C23: for every RGBFT colour `x`, `TransmittedColour()` has the channels
`colour[i] * filter + transmit`; for every RGBT colour `y`, `TransmittedColour()`
has every channel equal to the transmit and equals `TransmittedColour()` of the
widened colour `RGBFTColour(y)`, whose filter is `0`. -/
theorem TransmittedColour_channels (x : GenericRGBFTColour ℚ) (y : GenericRGBTColour ℚ) :
    (∀ i, x.TransmittedColour.mColour i = x.mColour.mColour i * x.mFilter + x.mTransm) ∧
      (∀ i, y.TransmittedColour.mColour i = y.mTransm) ∧
      (GenericRGBFTColour.ofRGBT y).filter = 0 ∧
      y.TransmittedColour = (GenericRGBFTColour.ofRGBT y).TransmittedColour := by
  refine ⟨fun i => rfl, fun i => rfl, rfl, ?_⟩
  ext i
  simp [GenericRGBTColour.TransmittedColour, GenericRGBFTColour.TransmittedColour,
    GenericRGBFTColour.ofRGBT, GenericLinearColour.ofGrey, GenericLinearColour.mulScalar,
    GenericLinearColour.addScalar, GenericRGBTColour.transm]

/-- C24: in the three-channel build, for every internal colour `c` the colour
`RGBColour(c)` has `red() = c.Red() = mColour[0]`, `green() = c.Green() =
mColour[1]` and `blue() = c.Blue() = mColour[2]`; converting an RGB colour to an
internal colour and back gives the same RGB colour; and `Greyscale()` and
`Weight()` have the same value before and after either conversion. -/
theorem RGB_internal_conversion_preserves (c : GenericColour ℚ) (rgb : GenericRGBColour ℚ) :
    ((GenericRGBColour.ofColour c).red = c.Red ∧ c.Red = c.mColour 0) ∧
      ((GenericRGBColour.ofColour c).green = c.Green ∧ c.Green = c.mColour 1) ∧
      ((GenericRGBColour.ofColour c).blue = c.Blue ∧ c.Blue = c.mColour 2) ∧
      GenericRGBColour.ofColour (GenericColour.ofRGBColour rgb) = rgb ∧
      GenericRGBColour.Greyscale (GenericRGBColour.ofColour c) = GenericColour.Greyscale c ∧
      GenericRGBColour.Weight (GenericRGBColour.ofColour c) = GenericColour.Weight c ∧
      GenericColour.Greyscale (GenericColour.ofRGBColour rgb) = GenericRGBColour.Greyscale rgb ∧
      GenericColour.Weight (GenericColour.ofRGBColour rgb) = GenericRGBColour.Weight rgb := by
  refine ⟨⟨rfl, rfl⟩, ⟨rfl, rfl⟩, ⟨rfl, rfl⟩, ?_, rfl, ?_, rfl, ?_⟩
  · ext i
    fin_cases i <;> rfl
  · unfold GenericColour.Weight
    rw [GenericLinearColour.SumAbs_three]
    rfl
  · unfold GenericColour.Weight
    rw [GenericLinearColour.SumAbs_three]
    rfl

/-! ## Reductions -/

/-- C25: for every vector with at least one channel, `Max()` is at least every
channel and equals one of the channels, `Min()` is at most every channel and
equals one of them, and `Min() ≤ Max()`. -/
theorem Max_greatest_Min_least {kChannels : Nat} [NeZero kChannels]
    (col : GenericLinearColour kChannels ℚ) :
    (∀ i, col.mColour i ≤ col.Max) ∧ (∃ i, col.Max = col.mColour i) ∧
      (∀ i, col.Min ≤ col.mColour i) ∧ (∃ i, col.Min = col.mColour i) ∧
      col.Min ≤ col.Max := by
  obtain ⟨a1, a2, a3⟩ := foldl_max_spec col.mColour (List.finRange kChannels).tail (col.mColour 0)
  obtain ⟨b1, b2, b3⟩ := foldl_min_spec col.mColour (List.finRange kChannels).tail (col.mColour 0)
  have hmax : ∀ i, col.mColour i ≤ col.Max := by
    intro i
    rcases eq_zero_or_mem_tail_finRange i with rfl | hi
    · exact a1
    · exact a2 i hi
  have hmin : ∀ i, col.Min ≤ col.mColour i := by
    intro i
    rcases eq_zero_or_mem_tail_finRange i with rfl | hi
    · exact b1
    · exact b2 i hi
  refine ⟨hmax, ?_, hmin, ?_, le_trans (hmin 0) (hmax 0)⟩
  · rcases a3 with h | ⟨i, _, h⟩
    · exact ⟨0, h⟩
    · exact ⟨i, h⟩
  · rcases b3 with h | ⟨i, _, h⟩
    · exact ⟨0, h⟩
    · exact ⟨i, h⟩

/-- Witness for C25: the RGB vector `(3, -1, 2)`. -/
theorem Max_greatest_Min_least_witness :
    (∀ i, (GenericRGBColour.ofRGB (3 : ℚ) (-1) 2).mColour i ≤
        (GenericRGBColour.ofRGB (3 : ℚ) (-1) 2).Max) ∧
      (∃ i, (GenericRGBColour.ofRGB (3 : ℚ) (-1) 2).Max =
        (GenericRGBColour.ofRGB (3 : ℚ) (-1) 2).mColour i) ∧
      (∀ i, (GenericRGBColour.ofRGB (3 : ℚ) (-1) 2).Min ≤
        (GenericRGBColour.ofRGB (3 : ℚ) (-1) 2).mColour i) ∧
      (∃ i, (GenericRGBColour.ofRGB (3 : ℚ) (-1) 2).Min =
        (GenericRGBColour.ofRGB (3 : ℚ) (-1) 2).mColour i) ∧
      (GenericRGBColour.ofRGB (3 : ℚ) (-1) 2).Min ≤ (GenericRGBColour.ofRGB (3 : ℚ) (-1) 2).Max :=
  Max_greatest_Min_least (GenericRGBColour.ofRGB (3 : ℚ) (-1) 2)

/-! ## The compact codec: saturation, signed storage and dither -/

/-- C26: a negative sum `exponent + kBias` wraps instead of saturating to `0`.
With `unsigned char` storage and the bias `0`, the RGB vector `(1/4, 0, 0)` has
the magnitude `1/4 > 1e-32` and the `frexp` exponent `-1`; the sum `-1 + 0` is
formed in `unsigned int`, where it is `4294967295`, and `ComputeExponent` stores
the biased exponent `255`, not `0`. -/
theorem ComputeExponent_negative_sum_wraps :
    (frexp (1 / 4)).2 = -1 ∧
      toUnsigned (-1 + (0 : Nat)) = 4294967295 ∧
      (GenericCompactColour.ComputeExponent unsignedChar 0
        (GenericRGBColour.ofRGB (1 / 4) 0 0)).biasedExponent = 255 := by
  have hfr : frexp (1 / 4) = (1 / 2, -1) := by
    have h := frexp_two_zpow (-2)
    rwa [show (2 : ℚ) ^ (-2 : Int) = 1 / 4 by norm_num,
      show (-2 + 1 : Int) = -1 by norm_num] at h
  have hmax : (GenericRGBColour.ofRGB (1 / 4 : ℚ) 0 0).Max = 1 / 4 := by
    rw [GenericRGBColour.ofRGB_Max]
    norm_num
  refine ⟨by rw [hfr], by norm_num [toUnsigned], ?_⟩
  unfold GenericCompactColour.ComputeExponent
  simp only [unsignedChar, Bool.false_eq_true, if_false, hmax, hfr]
  norm_num [clipToType, toUnsigned]

/-- C27: for the grey internal colour with every channel `32` and the bias `250`
of `PhotonColour`, `ComputeExponent` stores the biased exponent `255` and the
scale factor `8`, but the encoding constructor then fails at the access
`col[3]`, so no mantissa is stored and nothing can be decoded. -/
theorem encode_overflow_has_no_tuple :
    (GenericCompactColour.ComputeExponent unsignedChar PhotonColour.kBias
        (GenericColour.ofGrey 32)).biasedExponent = 255 ∧
      (GenericCompactColour.ComputeExponent unsignedChar PhotonColour.kBias
        (GenericColour.ofGrey 32)).scaleFactor = some 8 ∧
      ∀ raw : Data ColourModelInternal.kChannels,
        GenericCompactColour.ofLinearColour unsignedChar PhotonColour.kBias raw
          (GenericColour.ofGrey 32) 0 = none := by
  have hfr : frexp 32 = (1 / 2, 6) := by
    have h := frexp_two_zpow 5
    rwa [show (2 : ℚ) ^ (5 : Int) = 32 by norm_num,
      show (5 + 1 : Int) = 6 by norm_num] at h
  have hmax : (GenericColour.ofGrey (32 : ℚ)).Max = 32 := by
    rw [GenericLinearColour.Max_three]
    simp [GenericColour.ofGrey, GenericLinearColour.ofGrey]
  have hce : GenericCompactColour.ComputeExponent unsignedChar PhotonColour.kBias
      (GenericColour.ofGrey 32) = ⟨255, some 8⟩ := by
    unfold GenericCompactColour.ComputeExponent
    simp only [unsignedChar, Bool.false_eq_true, if_false, hmax, hfr]
    norm_num [clipToType, toUnsigned, toInt, ldexp]
  refine ⟨by rw [hce], by rw [hce], fun raw => ?_⟩
  apply GenericCompactColour.ofLinearColour_eq_none
  rw [hce]
  rfl

/-- C28: with `signed char` storage, encoding the zero RGB vector takes
`MaxAbs() = 0` as the magnitude and `ComputeExponent` writes the sentinel
`-128`, but the loop `for (i = 0; i <= kChannels; i++) mData[i] = 0;` then
overwrites the exponent entry: the tuple has the exponent entry `0`, which is not
the minimum of the storage type. -/
theorem encode_zero_signed_loses_sentinel :
    (GenericRGBColour.ofRGB (0 : ℚ) 0 0).MaxAbs = 0 ∧
      GenericCompactColour.ComputeExponent signedChar RadianceHDRColour.kBias
        (GenericRGBColour.ofRGB 0 0 0) = ⟨-128, none⟩ ∧
      ∀ raw : Data ColourModelRGB.kChannels,
        ∃ t, GenericCompactColour.ofLinearColour signedChar RadianceHDRColour.kBias raw
            (GenericRGBColour.ofRGB 0 0 0) 0 = some t ∧
          t.mData.get (kExp ColourModelRGB.kChannels) (le_refl _) = 0 ∧
          t.mData.get (kExp ColourModelRGB.kChannels) (le_refl _) ≠ signedChar.min := by
  have hmax : (GenericRGBColour.ofRGB (0 : ℚ) 0 0).MaxAbs = 0 := by
    rw [GenericLinearColour.MaxAbs_three, GenericRGBColour.ofRGB_red,
      GenericRGBColour.ofRGB_green, GenericRGBColour.ofRGB_blue]
    simp
  have hce : GenericCompactColour.ComputeExponent signedChar RadianceHDRColour.kBias
      (GenericRGBColour.ofRGB 0 0 0) = ⟨signedChar.min, none⟩ := by
    apply GenericCompactColour.ComputeExponent_of_le
    simp only [signedChar, if_true, hmax]
    norm_num
  have hexp : ∀ raw : Data ColourModelRGB.kChannels,
      Data.get ((List.range (ColourModelRGB.kChannels + 1)).foldl (fun d i => d.set i 0)
        (raw.set ColourModelRGB.kChannels signedChar.min))
        (kExp ColourModelRGB.kChannels) (le_refl _) = 0 := by
    intro raw
    simp only [Data.get, Data.foldl_set_apply, List.mem_range]
    rw [if_pos (by simp [kExp])]
  refine ⟨hmax, hce, fun raw =>
    ⟨_, by simp only [GenericCompactColour.ofLinearColour, hce]; rfl, ?_, ?_⟩⟩
  · exact hexp raw
  · rw [hexp raw]
    decide

/-- C29: for the RGB vector `(1.0, 0.5, 0.25)` and zero dither the scale factor
is `128` and the mantissa that the loop computes for the greatest channel is
`128`, but the encoding constructor fails at the access `col[3]`, so there is no
encoded tuple whose mantissas could be compared. -/
theorem encode_normalised_has_no_tuple :
    (GenericCompactColour.ComputeExponent unsignedChar RadianceHDRColour.kBias
        (GenericRGBColour.ofRGB 1 (1 / 2) (1 / 4))).scaleFactor = some 128 ∧
      clipToType unsignedChar
        ⌊(GenericRGBColour.ofRGB (1 : ℚ) (1 / 2) (1 / 4)).mColour 0 * 128 + 1 / 2 + 0⌋ = 128 ∧
      ∀ raw : Data ColourModelRGB.kChannels,
        GenericCompactColour.ofLinearColour unsignedChar RadianceHDRColour.kBias raw
          (GenericRGBColour.ofRGB 1 (1 / 2) (1 / 4)) 0 = none := by
  refine ⟨by rw [GenericCompactColour.ComputeExponent_one_half_quarter], ?_, fun raw => ?_⟩
  · rw [GenericRGBColour.ofRGB_red]
    have h : ⌊(1 : ℚ) * 128 + 1 / 2 + 0⌋ = 128 := by
      rw [Int.floor_eq_iff]
      norm_num
    rw [h]
    decide
  · apply GenericCompactColour.ofLinearColour_eq_none
    rw [GenericCompactColour.ComputeExponent_one_half_quarter]
    rfl

/-- C30: neither dither form yields a tuple for a non-degenerate vector. For the
RGB vector `(1.0, 0.5, 0.25)` and every scalar `d`, the constructor with the
scalar dither `d` (in particular the default `0.0`) and the constructor with the
dither vector whose channels all equal `d` both fail at the access `col[3]`,
whatever `EXP` stands for. -/
theorem dither_forms_have_no_tuple :
    ∀ (EXP : Nat) (raw : Data ColourModelRGB.kChannels) (d : ℚ),
      GenericCompactColour.ofLinearColour unsignedChar RadianceHDRColour.kBias raw
          (GenericRGBColour.ofRGB 1 (1 / 2) (1 / 4)) d = none ∧
        GenericCompactColour.ofLinearColourDither unsignedChar RadianceHDRColour.kBias EXP raw
          (GenericRGBColour.ofRGB 1 (1 / 2) (1 / 4)) (GenericLinearColour.ofGrey d) = none := by
  intro EXP raw d
  have hsome : (GenericCompactColour.ComputeExponent unsignedChar RadianceHDRColour.kBias
      (GenericRGBColour.ofRGB 1 (1 / 2) (1 / 4))).scaleFactor.isSome = true := by
    rw [GenericCompactColour.ComputeExponent_one_half_quarter]
    rfl
  exact ⟨GenericCompactColour.ofLinearColour_eq_none _ _ raw _ d hsome,
    GenericCompactColour.ofLinearColourDither_eq_none _ _ EXP raw _ _ hsome⟩

/-! ## Colour distances and legacy weights -/

/-- C35: for all RGB colours `a`, `b`, `c`, the RGB overload of `ColourDistance`
satisfies the triangle inequality and is symmetric, and it returns the value of
the generic definition `(a - b).SumAbs()`. -/
theorem ColourDistance_is_L1_metric (a b c : GenericRGBColour ℚ) :
    GenericRGBColour.ColourDistance a c ≤
        GenericRGBColour.ColourDistance a b + GenericRGBColour.ColourDistance b c ∧
      GenericRGBColour.ColourDistance a b = GenericRGBColour.ColourDistance b a ∧
      GenericRGBColour.ColourDistance a b = (a.sub b).SumAbs ∧
      GenericRGBColour.ColourDistance a b = ColourDistance a b := by
  have hgen : GenericRGBColour.ColourDistance a b = (a.sub b).SumAbs := by
    rw [GenericLinearColour.SumAbs_three]
    rfl
  refine ⟨?_, ?_, hgen, hgen⟩
  · unfold GenericRGBColour.ColourDistance
    have h1 := abs_sub_le a.red b.red c.red
    have h2 := abs_sub_le a.green b.green c.green
    have h3 := abs_sub_le a.blue b.blue c.blue
    linarith
  · unfold GenericRGBColour.ColourDistance
    rw [abs_sub_comm a.red, abs_sub_comm a.green, abs_sub_comm a.blue]

/-- C36: `ColourDistanceRGBT` on RGBFT colours does not read the filter: for
every `rgb`, `t`, `f1`, `f2` the distance between `RGBFTColour(rgb, f1, t)` and
`RGBFTColour(rgb, f2, t)` is `0`, although such colours can differ (filters `0`
and `1`); and for all RGBFT colours `a`, `b` the value equals
`ColourDistanceRGBT` of the RGBT colours built from their `rgb()` and
`transm()`. -/
theorem ColourDistanceRGBT_ignores_filter (rgb : GenericRGBColour ℚ) (t f1 f2 : ℚ)
    (a b : GenericRGBFTColour ℚ) :
    GenericRGBFTColour.ColourDistanceRGBT (GenericRGBFTColour.ofColourFT rgb f1 t)
        (GenericRGBFTColour.ofColourFT rgb f2 t) = 0 ∧
      GenericRGBFTColour.ofColourFT rgb 0 t ≠ GenericRGBFTColour.ofColourFT rgb 1 t ∧
      GenericRGBFTColour.ColourDistanceRGBT a b =
        GenericRGBTColour.ColourDistanceRGBT (GenericRGBTColour.ofColourT a.rgb a.transm)
          (GenericRGBTColour.ofColourT b.rgb b.transm) := by
  refine ⟨?_, ?_, rfl⟩
  · simp [GenericRGBFTColour.ColourDistanceRGBT, GenericRGBColour.ColourDistance,
      GenericRGBFTColour.transm, GenericRGBFTColour.ofColourFT, GenericRGBFTColour.rgb]
  · intro h
    have h2 := congrArg GenericRGBFTColour.mFilter h
    simp [GenericRGBFTColour.ofColourFT] at h2

/-- C37: for every RGB colour, `|Greyscale()| = WeightAbsGreyscale() ≤
WeightMaxAbs() = MaxAbs()` and `Weight() ≤ MaxAbs() ≤ 3 * Weight()`; the three
luminance constants are non-negative and sum to `1`; and `Greyscale()` of the
grey colour `(v, v, v)` is `v`. -/
theorem legacy_weights_ordered (col : GenericRGBColour ℚ) (v : ℚ) :
    |GenericRGBColour.Greyscale col| = GenericRGBColour.WeightAbsGreyscale col ∧
      GenericRGBColour.WeightAbsGreyscale col ≤ GenericRGBColour.WeightMaxAbs col ∧
      GenericRGBColour.WeightMaxAbs col = GenericLinearColour.MaxAbs col ∧
      GenericRGBColour.Weight col ≤ GenericLinearColour.MaxAbs col ∧
      GenericLinearColour.MaxAbs col ≤ 3 * GenericRGBColour.Weight col ∧
      (0 ≤ kRedIntensity ∧ 0 ≤ kGreenIntensity ∧ 0 ≤ kBlueIntensity ∧
        kRedIntensity + kGreenIntensity + kBlueIntensity = 1) ∧
      GenericRGBColour.Greyscale (GenericRGBColour.ofRGB v v v) = v := by
  have hM : GenericLinearColour.MaxAbs col =
      max (max |col.mColour 0| |col.mColour 1|) |col.mColour 2| :=
    GenericLinearColour.MaxAbs_three col
  have hG : GenericRGBColour.Greyscale col =
      297 / 1000 * col.mColour 0 + 589 / 1000 * col.mColour 1 + 114 / 1000 * col.mColour 2 := rfl
  have hr : |col.mColour 0| ≤ GenericLinearColour.MaxAbs col := by
    rw [hM]
    exact le_trans (le_max_left _ _) (le_max_left _ _)
  have hg : |col.mColour 1| ≤ GenericLinearColour.MaxAbs col := by
    rw [hM]
    exact le_trans (le_max_right _ _) (le_max_left _ _)
  have hb : |col.mColour 2| ≤ GenericLinearColour.MaxAbs col := by
    rw [hM]
    exact le_max_right _ _
  have hr0 := abs_nonneg (col.mColour 0)
  have hg0 := abs_nonneg (col.mColour 1)
  have hb0 := abs_nonneg (col.mColour 2)
  refine ⟨rfl, ?_, rfl, ?_, ?_, ?_, ?_⟩
  · show |GenericRGBColour.Greyscale col| ≤ GenericLinearColour.MaxAbs col
    rw [hG, abs_le]
    have h1 := neg_abs_le (col.mColour 0)
    have h2 := le_abs_self (col.mColour 0)
    have h3 := neg_abs_le (col.mColour 1)
    have h4 := le_abs_self (col.mColour 1)
    have h5 := neg_abs_le (col.mColour 2)
    have h6 := le_abs_self (col.mColour 2)
    constructor <;> linarith
  · rw [GenericRGBColour.Weight_eq]
    linarith
  · rw [GenericRGBColour.Weight_eq, hM]
    have hmax : max (max |col.mColour 0| |col.mColour 1|) |col.mColour 2| ≤
        |col.mColour 0| + |col.mColour 1| + |col.mColour 2| := by
      apply max_le
      · apply max_le <;> linarith
      · linarith
    linarith
  · norm_num [kRedIntensity, kGreenIntensity, kBlueIntensity]
  · unfold GenericRGBColour.Greyscale
    rw [GenericRGBColour.ofRGB_red, GenericRGBColour.ofRGB_green, GenericRGBColour.ofRGB_blue]
    norm_num [kRedIntensity, kGreenIntensity, kBlueIntensity]
    ring

/-! ## The array interface of RGBFT colours -/

/-- Counterexample for C38: with `float` channels and `double` array elements,
`Set(expr, 5)` of an array whose elements are the `double` nearest to `0.1`,
followed by `Get(out, 5)`, returns `13421773 / 2 ^ 27 = 0.10000000149...` in
`out[0]`, the `float` nearest to `0.1`, so `out` is not equal to `expr`. -/
theorem Get_after_Set_narrows :
    binary64.IsValue (3602879701896397 / 2 ^ 55) ∧
      GenericRGBFTColour.Get
        (GenericRGBFTColour.Set (GenericRGBFTColour.ofColourFT (GenericRGBColour.ofRGB 0 0 0) 0 0)
          binary32 (fun _ => 3602879701896397 / 2 ^ 55) 5)
        binary64 (fun _ => 0) 5 pRED = 13421773 / 2 ^ 27 ∧
      GenericRGBFTColour.Get
        (GenericRGBFTColour.Set (GenericRGBFTColour.ofColourFT (GenericRGBColour.ofRGB 0 0 0) 0 0)
          binary32 (fun _ => 3602879701896397 / 2 ^ 55) 5)
        binary64 (fun _ => 0) 5 ≠ fun _ => 3602879701896397 / 2 ^ 55 := by
  have hd : binary64.IsValue (3602879701896397 / 2 ^ 55) := by
    have h := FloatFormat.isValue_int_mul_zpow binary64 3602879701896397 (-55)
      (by norm_num [binary64]) (by norm_num [binary64]) (by norm_num [binary64])
    have e : ((3602879701896397 : Int) : ℚ) * 2 ^ (-55 : Int) = 3602879701896397 / 2 ^ 55 := by
      norm_num
    rwa [e] at h
  have hf : binary32.round (3602879701896397 / 2 ^ 55) = 13421773 / 2 ^ 27 := by
    have h := FloatFormat.round_eq binary32 (3602879701896397 / 2 ^ 55) (-4) (13421772 + 1)
      (by norm_num) (by norm_num) (by norm_num)
      (by
        apply roundHalfEven_of_gt_half
        · norm_num [binary32]
        · norm_num [binary32])
    rw [h]
    norm_num [binary32]
  have hw : binary64.round (13421773 / 2 ^ 27) = 13421773 / 2 ^ 27 := by
    have h := FloatFormat.round_int_mul_zpow binary64 13421773 (-27)
      (by norm_num [binary64]) (by norm_num [binary64])
    have e : ((13421773 : Int) : ℚ) * 2 ^ (-27 : Int) = 13421773 / 2 ^ 27 := by norm_num
    rwa [e] at h
  have hred : GenericRGBFTColour.Get
      (GenericRGBFTColour.Set (GenericRGBFTColour.ofColourFT (GenericRGBColour.ofRGB 0 0 0) 0 0)
        binary32 (fun _ => 3602879701896397 / 2 ^ 55) 5)
      binary64 (fun _ => 0) 5 pRED = 13421773 / 2 ^ 27 := by
    show binary64.round (binary32.round (3602879701896397 / 2 ^ 55)) = 13421773 / 2 ^ 27
    rw [hf, hw]
  refine ⟨hd, hred, fun h => ?_⟩
  have h2 := congrFun h pRED
  rw [hred] at h2
  norm_num at h2

/-- C38, amended: `x.Set(expr, n)` assigns `expr[j]`, converted to the channel
type, to the `j`-th of red, green, blue, filter, transmit (indices
`pRED .. pTRANSM`) exactly when `j < n` and keeps the other components, so
`n = 0` changes nothing; `x.Get(out, n)` writes the `j`-th component, converted
to the element type of the array, to `out[j]` exactly when `j < n` and keeps the
other elements; `Get(out, 5)` after `Set(expr, 5)` makes `out[j]` the value of
`expr[j]` converted to the channel type and back, which is `expr[j]` when every
element of `expr` is a value of the channel type and of the element type. -/
theorem Set_Get_partial (x : GenericRGBFTColour ℚ) (F D : FloatFormat) (expr out : EXPRESS)
    (n : Nat) :
    ((x.Set F expr n).red = if 0 < n then F.round (expr pRED) else x.red) ∧
      ((x.Set F expr n).green = if 1 < n then F.round (expr pGREEN) else x.green) ∧
      ((x.Set F expr n).blue = if 2 < n then F.round (expr pBLUE) else x.blue) ∧
      ((x.Set F expr n).filter = if 3 < n then F.round (expr pFILTER) else x.filter) ∧
      ((x.Set F expr n).transm = if 4 < n then F.round (expr pTRANSM) else x.transm) ∧
      x.Set F expr 0 = x ∧
      (x.Get D out n pRED = if 0 < n then D.round x.red else out pRED) ∧
      (x.Get D out n pGREEN = if 1 < n then D.round x.green else out pGREEN) ∧
      (x.Get D out n pBLUE = if 2 < n then D.round x.blue else out pBLUE) ∧
      (x.Get D out n pFILTER = if 3 < n then D.round x.filter else out pFILTER) ∧
      (x.Get D out n pTRANSM = if 4 < n then D.round x.transm else out pTRANSM) ∧
      ((x.Set F expr 5).Get D out 5 = fun j => D.round (F.round (expr j))) ∧
      ((∀ j, F.IsValue (expr j)) → (∀ j, D.IsValue (expr j)) →
        (x.Set F expr 5).Get D out 5 = expr) := by
  have hS : ∀ m, 5 ≤ m → x.Set F expr m = x.Set F expr 5 := by
    intro m hm
    have h0 : m > 0 := by omega
    have h1 : m > 1 := by omega
    have h2 : m > 2 := by omega
    have h3 : m > 3 := by omega
    have h4 : m > 4 := by omega
    simp [GenericRGBFTColour.Set, h0, h1, h2, h3, h4]
  have hG : ∀ m, 5 ≤ m → x.Get D out m = x.Get D out 5 := by
    intro m hm
    have h0 : m > 0 := by omega
    have h1 : m > 1 := by omega
    have h2 : m > 2 := by omega
    have h3 : m > 3 := by omega
    have h4 : m > 4 := by omega
    simp [GenericRGBFTColour.Get, h0, h1, h2, h3, h4]
  have hSG : (x.Set F expr 5).Get D out 5 = fun j => D.round (F.round (expr j)) := by
    funext j
    fin_cases j <;> rfl
  refine ⟨?_, ?_, ?_, ?_, ?_, rfl, ?_, ?_, ?_, ?_, ?_, hSG, ?_⟩
  · rcases n with _ | _ | _ | _ | _ | n
    iterate 5 rfl
    rw [hS _ (by omega), if_pos (by omega)]
    rfl
  · rcases n with _ | _ | _ | _ | _ | n
    iterate 5 rfl
    rw [hS _ (by omega), if_pos (by omega)]
    rfl
  · rcases n with _ | _ | _ | _ | _ | n
    iterate 5 rfl
    rw [hS _ (by omega), if_pos (by omega)]
    rfl
  · rcases n with _ | _ | _ | _ | _ | n
    iterate 5 rfl
    rw [hS _ (by omega), if_pos (by omega)]
    rfl
  · rcases n with _ | _ | _ | _ | _ | n
    iterate 5 rfl
    rw [hS _ (by omega), if_pos (by omega)]
    rfl
  · rcases n with _ | _ | _ | _ | _ | n
    iterate 5 rfl
    rw [hG _ (by omega), if_pos (by omega)]
    rfl
  · rcases n with _ | _ | _ | _ | _ | n
    iterate 5 rfl
    rw [hG _ (by omega), if_pos (by omega)]
    rfl
  · rcases n with _ | _ | _ | _ | _ | n
    iterate 5 rfl
    rw [hG _ (by omega), if_pos (by omega)]
    rfl
  · rcases n with _ | _ | _ | _ | _ | n
    iterate 5 rfl
    rw [hG _ (by omega), if_pos (by omega)]
    rfl
  · rcases n with _ | _ | _ | _ | _ | n
    iterate 5 rfl
    rw [hG _ (by omega), if_pos (by omega)]
    rfl
  · intro hF hD
    rw [hSG]
    funext j
    rw [(hF j).1, (hD j).1]

/-- Witness for C38, amended: `float` channels, `double` array elements, the
black RGBFT colour and the array whose five elements are `1/4`, which is
representable in both types. -/
theorem Set_Get_partial_witness :
    GenericRGBFTColour.Get
      (GenericRGBFTColour.Set (GenericRGBFTColour.ofColourFT (GenericRGBColour.ofRGB 0 0 0) 0 0)
        binary32 (fun _ => 1 / 4) 5)
      binary64 (fun _ => 0) 5 = fun _ => 1 / 4 :=
  ( Set_Get_partial (GenericRGBFTColour.ofColourFT (GenericRGBColour.ofRGB 0 0 0) 0 0)
    binary32 binary64 (fun _ => 1 / 4) (fun _ => 0) 5).2.2.2.2.2.2.2.2.2.2.2.2
    (fun _ => by
      have h := FloatFormat.isValue_int_mul_zpow binary32 1 (-2) (by norm_num [binary32])
        (by norm_num [binary32]) (by norm_num [binary32])
      have e : ((1 : Int) : ℚ) * 2 ^ (-2 : Int) = 1 / 4 := by norm_num
      rwa [e] at h)
    (fun _ => by
      have h := FloatFormat.isValue_int_mul_zpow binary64 1 (-2) (by norm_num [binary64])
        (by norm_num [binary64]) (by norm_num [binary64])
      have e : ((1 : Int) : ℚ) * 2 ^ (-2 : Int) = 1 / 4 := by norm_num
      rwa [e] at h)

/-! ## The compact codec: exponents and scales -/

/-- C33: for a greatest channel above `1e-32` (and below `2 ^ 1024`, as every
finite floating-point value is), the sum `exponent + kBias` is at least `22`
for the bias `128` and at least `144` for the bias `250`, so it is not clamped
from below; the biased exponent that `ComputeExponent` stores is at least `22`
for `RadianceHDRColour` and at least `1` for `PhotonColour`, and differs from
the sentinel `0`. -/
theorem biasedExponent_above_sentinel {kChannels : Nat} [NeZero kChannels]
    (col : GenericLinearColour kChannels ℚ)
    (hM : 1 / 10 ^ 32 < col.Max) (hfin : col.Max < 2 ^ (1024 : Int)) :
    22 ≤ (frexp col.Max).2 + (RadianceHDRColour.kBias : Int) ∧
      144 ≤ (frexp col.Max).2 + (PhotonColour.kBias : Int) ∧
      22 ≤ (GenericCompactColour.ComputeExponent unsignedChar RadianceHDRColour.kBias
        col).biasedExponent ∧
      1 ≤ (GenericCompactColour.ComputeExponent unsignedChar PhotonColour.kBias
        col).biasedExponent ∧
      (GenericCompactColour.ComputeExponent unsignedChar RadianceHDRColour.kBias
        col).biasedExponent ≠ unsignedChar.min ∧
      (GenericCompactColour.ComputeExponent unsignedChar PhotonColour.kBias
        col).biasedExponent ≠ unsignedChar.min := by
  have hpos : (0 : ℚ) < col.Max := lt_trans (by norm_num) hM
  have hlo : (-107 : Int) + 1 ≤ (frexp col.Max).2 :=
    frexp_exponent_ge _ hpos (-107) (le_trans one_over_ten_pow_gt_two_zpow (le_of_lt hM))
  have hhi : (frexp col.Max).2 ≤ 1024 := frexp_exponent_le _ hpos 1024 hfin
  have hR : 22 ≤ (GenericCompactColour.ComputeExponent unsignedChar RadianceHDRColour.kBias
      col).biasedExponent := by
    by_cases h : (frexp col.Max).2 + (RadianceHDRColour.kBias : Int) ≤ 255
    · rw [GenericCompactColour.ComputeExponent_unsigned_in_range _ col hM
        (by simp only [Nat.cast_ofNat]; omega) h]
      simp only [Nat.cast_ofNat]
      omega
    · rw [GenericCompactColour.ComputeExponent_unsigned_clamped _ col hM
        (Or.inl (not_le.mp h)) (by simp only [Nat.cast_ofNat]; omega)
        (by simp only [Nat.cast_ofNat]; omega)]
      decide
  have hP : 1 ≤ (GenericCompactColour.ComputeExponent unsignedChar PhotonColour.kBias
      col).biasedExponent := by
    by_cases h : (frexp col.Max).2 + (PhotonColour.kBias : Int) ≤ 255
    · rw [GenericCompactColour.ComputeExponent_unsigned_in_range _ col hM
        (by simp only [Nat.cast_ofNat]; omega) h]
      simp only [Nat.cast_ofNat]
      omega
    · rw [GenericCompactColour.ComputeExponent_unsigned_clamped _ col hM
        (Or.inl (not_le.mp h)) (by simp only [Nat.cast_ofNat]; omega)
        (by simp only [Nat.cast_ofNat]; omega)]
      decide
  have hmin : unsignedChar.min = 0 := rfl
  refine ⟨by simp only [Nat.cast_ofNat]; omega, by simp only [Nat.cast_ofNat]; omega,
    hR, hP, ?_, ?_⟩
  · rw [hmin]
    omega
  · rw [hmin]
    omega

/-- Witness for C33: the RGB vector `(1.0, 0.5, 0.25)`. -/
theorem biasedExponent_above_sentinel_witness :
    22 ≤ (frexp (GenericRGBColour.ofRGB (1 : ℚ) (1 / 2) (1 / 4)).Max).2 +
        (RadianceHDRColour.kBias : Int) ∧
      144 ≤ (frexp (GenericRGBColour.ofRGB (1 : ℚ) (1 / 2) (1 / 4)).Max).2 +
        (PhotonColour.kBias : Int) ∧
      22 ≤ (GenericCompactColour.ComputeExponent unsignedChar RadianceHDRColour.kBias
        (GenericRGBColour.ofRGB 1 (1 / 2) (1 / 4))).biasedExponent ∧
      1 ≤ (GenericCompactColour.ComputeExponent unsignedChar PhotonColour.kBias
        (GenericRGBColour.ofRGB 1 (1 / 2) (1 / 4))).biasedExponent ∧
      (GenericCompactColour.ComputeExponent unsignedChar RadianceHDRColour.kBias
        (GenericRGBColour.ofRGB 1 (1 / 2) (1 / 4))).biasedExponent ≠ unsignedChar.min ∧
      (GenericCompactColour.ComputeExponent unsignedChar PhotonColour.kBias
        (GenericRGBColour.ofRGB 1 (1 / 2) (1 / 4))).biasedExponent ≠ unsignedChar.min :=
  biasedExponent_above_sentinel (GenericRGBColour.ofRGB 1 (1 / 2) (1 / 4))
    (by rw [GenericRGBColour.ofRGB_Max]; norm_num)
    (by rw [GenericRGBColour.ofRGB_Max]; norm_num)

/-- C39: with `unsigned char` storage, a greatest channel above `1e-32` (and
below `2 ^ 1024`) and a bias below `2 ^ 30`, `ComputeExponent` returns `true`
and its scale factor is `2 ^ (8 + kBias - E)` for the biased exponent `E` that
it stores, whether `E` was clamped or not; so the scale factor times the
`expFactor = ldexp(1.0, E - (kBias + 8))` of the decoder is `1`. -/
theorem scaleFactor_reciprocal_of_expFactor {kChannels : Nat} [NeZero kChannels] (kBias : Nat)
    (col : GenericLinearColour kChannels ℚ)
    (hM : 1 / 10 ^ 32 < col.Max) (hfin : col.Max < 2 ^ (1024 : Int)) (hB : kBias < 2 ^ 30) :
    (GenericCompactColour.ComputeExponent unsignedChar kBias col).scaleFactor =
        some (2 ^ (8 + (kBias : Int) -
          (GenericCompactColour.ComputeExponent unsignedChar kBias col).biasedExponent)) ∧
      (2 : ℚ) ^ (8 + (kBias : Int) -
          (GenericCompactColour.ComputeExponent unsignedChar kBias col).biasedExponent) *
        ldexp 1 ((GenericCompactColour.ComputeExponent unsignedChar kBias col).biasedExponent -
          toInt (kBias + 8)) = 1 := by
  have hpos : (0 : ℚ) < col.Max := lt_trans (by norm_num) hM
  have hlo : (-107 : Int) + 1 ≤ (frexp col.Max).2 :=
    frexp_exponent_ge _ hpos (-107) (le_trans one_over_ten_pow_gt_two_zpow (le_of_lt hM))
  have hhi : (frexp col.Max).2 ≤ 1024 := frexp_exponent_le _ hpos 1024 hfin
  have hcast : toInt ((kBias : Int) + 8) = (kBias : Int) + 8 := by
    unfold toInt
    split_ifs <;> omega
  constructor
  · by_cases h : 0 ≤ (frexp col.Max).2 + (kBias : Int) ∧ (frexp col.Max).2 + (kBias : Int) ≤ 255
    · rw [GenericCompactColour.ComputeExponent_unsigned_in_range _ col hM h.1 h.2]
    · rw [GenericCompactColour.ComputeExponent_unsigned_clamped _ col hM (by omega) (by omega)
        (by omega)]
  · rw [hcast, ldexp, one_mul, ← zpow_add₀ two_ne_zero]
    have hz : 8 + (kBias : Int) -
        (GenericCompactColour.ComputeExponent unsignedChar kBias col).biasedExponent +
        ((GenericCompactColour.ComputeExponent unsignedChar kBias col).biasedExponent -
          ((kBias : Int) + 8)) = 0 := by ring
    rw [hz, zpow_zero]

/-- Witness for C39: the RGB vector `(1.0, 0.5, 0.25)` and the bias `128`. -/
theorem scaleFactor_reciprocal_of_expFactor_witness :
    (GenericCompactColour.ComputeExponent unsignedChar RadianceHDRColour.kBias
        (GenericRGBColour.ofRGB 1 (1 / 2) (1 / 4))).scaleFactor =
        some (2 ^ (8 + (RadianceHDRColour.kBias : Int) -
          (GenericCompactColour.ComputeExponent unsignedChar RadianceHDRColour.kBias
            (GenericRGBColour.ofRGB 1 (1 / 2) (1 / 4))).biasedExponent)) ∧
      (2 : ℚ) ^ (8 + (RadianceHDRColour.kBias : Int) -
          (GenericCompactColour.ComputeExponent unsignedChar RadianceHDRColour.kBias
            (GenericRGBColour.ofRGB 1 (1 / 2) (1 / 4))).biasedExponent) *
        ldexp 1 ((GenericCompactColour.ComputeExponent unsignedChar RadianceHDRColour.kBias
            (GenericRGBColour.ofRGB 1 (1 / 2) (1 / 4))).biasedExponent -
          toInt (RadianceHDRColour.kBias + 8)) = 1 :=
  scaleFactor_reciprocal_of_expFactor RadianceHDRColour.kBias
    (GenericRGBColour.ofRGB 1 (1 / 2) (1 / 4))
    (by rw [GenericRGBColour.ofRGB_Max]; norm_num)
    (by rw [GenericRGBColour.ofRGB_Max]; norm_num) (by norm_num)

/-! ## The compact codec: re-encoding, scaling and negative channels -/

/-- C31: the `RadianceHDRColour` tuple `(128, 64, 32 | 129)` is normalised and
decodes to `(1.0, 0.5, 0.25)`, whose greatest channel exceeds `1e-32`; encoding
the decoded vector with zero dither fails at the access `col[3]`, so the tuple
is not returned. -/
theorem reencode_decoded_has_no_tuple :
    GenericLinearColour.ofCompactColour unsignedChar RadianceHDRColour.kBias
        (⟨![128, 64, 32, 129, 0]⟩ : GenericCompactColour ColourModelRGB.kChannels) =
        GenericRGBColour.ofRGB 1 (1 / 2) (1 / 4) ∧
      ∀ raw : Data ColourModelRGB.kChannels,
        GenericCompactColour.ofLinearColour unsignedChar RadianceHDRColour.kBias raw
          (GenericLinearColour.ofCompactColour unsignedChar RadianceHDRColour.kBias
            (⟨![128, 64, 32, 129, 0]⟩ : GenericCompactColour ColourModelRGB.kChannels)) 0 =
          none := by
  have hdec : GenericLinearColour.ofCompactColour unsignedChar RadianceHDRColour.kBias
      (⟨![128, 64, 32, 129, 0]⟩ : GenericCompactColour ColourModelRGB.kChannels) =
      GenericRGBColour.ofRGB 1 (1 / 2) (1 / 4) := by
    have hI : toInt ((RadianceHDRColour.kBias : Int) + 8) = 136 := by decide
    unfold GenericLinearColour.ofCompactColour
    rw [if_pos (by decide), hI]
    ext i
    fin_cases i
    · show ((128 : Int) : ℚ) * ldexp 1 (129 - 136) = 1
      norm_num [ldexp]
    · show ((64 : Int) : ℚ) * ldexp 1 (129 - 136) = 1 / 2
      norm_num [ldexp]
    · show ((32 : Int) : ℚ) * ldexp 1 (129 - 136) = 1 / 4
      norm_num [ldexp]
  refine ⟨hdec, fun raw => ?_⟩
  rw [hdec]
  apply GenericCompactColour.ofLinearColour_eq_none
  rw [GenericCompactColour.ComputeExponent_one_half_quarter]
  rfl

/-- C32: for `x = (1.0, 0.5, 0.25)` and `k = 1`, `ComputeExponent` stores the
biased exponent `129` with scale factor `128` for `x` and `130` with scale
factor `64` for `x * 2`, but the encoding constructor fails at the access
`col[3]` for both vectors, so there are no mantissas to compare. -/
theorem scaled_encoding_has_no_tuple :
    GenericCompactColour.ComputeExponent unsignedChar RadianceHDRColour.kBias
        (GenericRGBColour.ofRGB 1 (1 / 2) (1 / 4)) = ⟨129, some 128⟩ ∧
      GenericCompactColour.ComputeExponent unsignedChar RadianceHDRColour.kBias
        ((GenericRGBColour.ofRGB 1 (1 / 2) (1 / 4)).mulScalar 2) = ⟨130, some 64⟩ ∧
      ∀ raw : Data ColourModelRGB.kChannels,
        GenericCompactColour.ofLinearColour unsignedChar RadianceHDRColour.kBias raw
            (GenericRGBColour.ofRGB 1 (1 / 2) (1 / 4)) 0 = none ∧
          GenericCompactColour.ofLinearColour unsignedChar RadianceHDRColour.kBias raw
            ((GenericRGBColour.ofRGB 1 (1 / 2) (1 / 4)).mulScalar 2) 0 = none := by
  have hfr : frexp 2 = (1 / 2, 2) := by
    have h := frexp_two_zpow 1
    rwa [show (2 : ℚ) ^ (1 : Int) = 2 by norm_num, show (1 + 1 : Int) = 2 by norm_num] at h
  have hmax : ((GenericRGBColour.ofRGB (1 : ℚ) (1 / 2) (1 / 4)).mulScalar 2).Max = 2 := by
    rw [GenericLinearColour.Max_three]
    show max (max ((GenericRGBColour.ofRGB (1 : ℚ) (1 / 2) (1 / 4)).mColour 0 * 2)
      ((GenericRGBColour.ofRGB (1 : ℚ) (1 / 2) (1 / 4)).mColour 1 * 2))
      ((GenericRGBColour.ofRGB (1 : ℚ) (1 / 2) (1 / 4)).mColour 2 * 2) = 2
    rw [GenericRGBColour.ofRGB_red, GenericRGBColour.ofRGB_green, GenericRGBColour.ofRGB_blue]
    norm_num
  have hce : GenericCompactColour.ComputeExponent unsignedChar RadianceHDRColour.kBias
      ((GenericRGBColour.ofRGB 1 (1 / 2) (1 / 4)).mulScalar 2) = ⟨130, some 64⟩ := by
    unfold GenericCompactColour.ComputeExponent
    simp only [unsignedChar, Bool.false_eq_true, if_false, hmax, hfr]
    norm_num [clipToType, toUnsigned]
  refine ⟨GenericCompactColour.ComputeExponent_one_half_quarter, hce, fun raw => ⟨?_, ?_⟩⟩
  · apply GenericCompactColour.ofLinearColour_eq_none
    rw [GenericCompactColour.ComputeExponent_one_half_quarter]
    rfl
  · apply GenericCompactColour.ofLinearColour_eq_none
    rw [hce]
    rfl

/-- C34: for the RGB vector `(1, -1, 0)`, whose greatest channel exceeds `1e-32`,
the loop computes the mantissa `0` for the channel `-1`, but the encoding
constructor fails at the access `col[3]`, so no mantissa is stored. The vector
`(-5, -5, -5)` has `Max() = -5`; it encodes to the tuple with all-zero mantissas
and exponent entry `0`, which decodes to the zero vector. -/
theorem negative_channel_has_no_mantissa :
    clipToType unsignedChar
        ⌊(GenericRGBColour.ofRGB (1 : ℚ) (-1) 0).mColour 1 * 128 + 1 / 2 + 0⌋ = 0 ∧
      (∀ raw : Data ColourModelRGB.kChannels,
        GenericCompactColour.ofLinearColour unsignedChar RadianceHDRColour.kBias raw
          (GenericRGBColour.ofRGB 1 (-1) 0) 0 = none) ∧
      ∀ raw : Data ColourModelRGB.kChannels,
        ∃ t, GenericCompactColour.ofLinearColour unsignedChar RadianceHDRColour.kBias raw
            (GenericRGBColour.ofRGB (-5) (-5) (-5)) 0 = some t ∧
          (∀ (i : Nat) (hi : i ≤ ColourModelRGB.kChannels), t.mData.get i hi = 0) ∧
          GenericLinearColour.ofCompactColour unsignedChar RadianceHDRColour.kBias t =
            GenericLinearColour.zero := by
  refine ⟨?_, fun raw => ?_, fun raw => ?_⟩
  · rw [GenericRGBColour.ofRGB_green]
    have h : ⌊(-1 : ℚ) * 128 + 1 / 2 + 0⌋ = -128 := by
      rw [Int.floor_eq_iff]
      norm_num
    rw [h]
    decide
  · apply GenericCompactColour.ofLinearColour_eq_none
    apply GenericCompactColour.ComputeExponent_isSome
    rw [GenericRGBColour.ofRGB_Max]
    norm_num [unsignedChar]
  · have hce := GenericCompactColour.ComputeExponent_of_le unsignedChar RadianceHDRColour.kBias
      (GenericRGBColour.ofRGB (-5 : ℚ) (-5) (-5))
      (by rw [GenericRGBColour.ofRGB_Max]; norm_num [unsignedChar])
    have hzero : ∀ (i : Nat) (hi : i ≤ ColourModelRGB.kChannels),
        Data.get ((List.range (ColourModelRGB.kChannels + 1)).foldl (fun d i => d.set i 0)
          (raw.set ColourModelRGB.kChannels unsignedChar.min)) i hi = 0 := by
      intro i hi
      simp only [Data.get, Data.foldl_set_apply, List.mem_range]
      rw [if_pos (by omega)]
    refine ⟨_, by simp only [GenericCompactColour.ofLinearColour, hce]; rfl, hzero, ?_⟩
    unfold GenericLinearColour.ofCompactColour
    rw [hzero (kExp ColourModelRGB.kChannels) (le_refl _), if_neg (by decide)]
    rfl

end pov_base
